import Mathlib

/-
A verification development for a student course-enrollment system.  The
definitions below are a shallow embedding of the JavaScript services
(enrollmentService and adminService) together with the relational state they
operate on.  Times of day and weekdays are strings, compared exactly as
JavaScript compares strings (lexicographically, code unit by code unit); the
relational store is modelled as lists of rows, and every SQL statement issued
by the services is modelled as a pure function over that state.  Each service
call returns its result, the resulting committed state, and the list of
storage statements it issued (failed calls roll their transaction back, so
the state they return is the unchanged input state).
-/

namespace SCS

/-- JavaScript string comparison on the underlying character sequences:
lexicographic, deciding each position by the numeric character value. -/
def strLtAux : List Char → List Char → Bool
  | [], [] => false
  | [], _ :: _ => true
  | _ :: _, [] => false
  | a :: as, b :: bs =>
    if a.toNat < b.toNat then true
    else if b.toNat < a.toNat then false
    else strLtAux as bs

/-- The JavaScript comparison `a < b` on strings. -/
def strLt (a b : String) : Bool := strLtAux a.data b.data

/-- The JavaScript comparison `a >= b` on strings (total order, no NaN). -/
def jsGe (a b : String) : Bool := !(strLt a b)

/-- Model of `timeSlotsOverlap(start1, end1, start2, end2)`:
`start1 < end2 && end1 > start2`, string comparisons. -/
def timeSlotsOverlap (start1 end1 start2 end2 : String) : Bool :=
  strLt start1 end2 && strLt start2 end1

/-- A row of the timetable query fed to the clash checker: `t.*` joined with
the course code of the owning course. -/
structure TRow where
  timetable_id : Int
  course_id : Int
  day_of_week : String
  start_time : String
  end_time : String
  course_code : String
  deriving DecidableEq

/-- Structured outcome of `checkTimetableClashes`: success, or the clash
error naming the weekday, the incoming slot and the earlier slot it hit. -/
inductive ClashCheck where
  | ok
  | clash (day : String) (slot existing : TRow)
  deriving DecidableEq

/-- The inner `for (const existing of timeSlotsByDay[day])` loop: first
already-bucketed slot overlapping the incoming one, scanning in order. -/
def firstOverlapping (slot : TRow) : List TRow → Option TRow
  | [] => none
  | e2 :: rest =>
    if timeSlotsOverlap slot.start_time slot.end_time e2.start_time e2.end_time then some e2
    else firstOverlapping slot rest

/-- The main loop of `checkTimetableClashes`, with the `timeSlotsByDay`
object modelled as a total map from weekday string to bucket (a missing key
reads as the empty bucket, as in JavaScript after the init line). -/
def checkClashesAux (buckets : String → List TRow) : List TRow → ClashCheck
  | [] => .ok
  | slot :: rest =>
    match firstOverlapping slot (buckets slot.day_of_week) with
    | some existing => .clash slot.day_of_week slot existing
    | none =>
        checkClashesAux
          (fun d => if d = slot.day_of_week then buckets d ++ [slot] else buckets d) rest

/-- Model of `checkTimetableClashes(timetables)`. -/
def checkTimetableClashes (timetables : List TRow) : ClashCheck :=
  checkClashesAux (fun _ => []) timetables

/-- Reference form of the same scan keeping the already-processed slots as a
plain list: the bucket of a weekday is the sublist of seen slots on that
weekday, in arrival order. -/
def scanClash (seen : List TRow) : List TRow → ClashCheck
  | [] => .ok
  | slot :: rest =>
    match firstOverlapping slot
        (seen.filter (fun e2 => decide (e2.day_of_week = slot.day_of_week))) with
    | some existing => .clash slot.day_of_week slot existing
    | none => scanClash (seen ++ [slot]) rest

/-- No-clash relation between an earlier slot `a` and a later slot `b`: if
they share a weekday, the overlap test of `b` against `a` is false. -/
def noClash (a b : TRow) : Prop :=
  a.day_of_week = b.day_of_week →
    timeSlotsOverlap b.start_time b.end_time a.start_time a.end_time = false

instance : DecidablePred fun p : TRow × TRow => noClash p.1 p.2 := by
  intro p; unfold noClash; infer_instance

/-! Relational state: one list of rows per table of the schema. -/

/-- A row of the `students` table (columns used by the services). -/
structure Student where
  student_id : Int
  name : String
  college_id : Int
  deriving DecidableEq

/-- A row of the `courses` table (columns used by the services). -/
structure Course where
  course_id : Int
  course_code : String
  course_name : String
  college_id : Int
  credits : Int
  deriving DecidableEq

/-- A row of the `timetables` table. -/
structure Timetable where
  timetable_id : Int
  course_id : Int
  day_of_week : String
  start_time : String
  end_time : String
  deriving DecidableEq

/-- The relational store; `student_courses` rows are (student_id, course_id)
pairs. -/
structure DBState where
  students : List Student
  courses : List Course
  timetables : List Timetable
  student_courses : List (Int × Int)
  deriving DecidableEq

/-- Tags for the storage statements a service call issues, in order. -/
inductive Query where
  | selStudent (sid : Int)
  | selCourses (ids : List Int)
  | selTimetables (ids : List Int)
  | selEnrolledTimetables (sid : Int)
  | selAlreadyEnrolled (sid : Int) (ids : List Int)
  | insEnrollment (sid cid : Int)
  | selCourse (cid : Int)
  | selEnrolledStudents (cid : Int)
  | selAddConflicts (cid : Int) (day startT endT : String)
  | insTimetable (cid : Int) (day startT endT : String)
  | selTimetableRow (tid : Int)
  | selUpdConflicts (cid : Int) (day startT endT : String) (tid : Int)
  | updTimetableRow (tid : Int) (day startT endT : String)
  deriving DecidableEq

/-- `[...new Set(courseIds)]`: keep the first occurrence of each element. -/
def jsDedupAux [DecidableEq α] (seen : List α) : List α → List α
  | [] => []
  | x :: xs => if x ∈ seen then jsDedupAux seen xs else x :: jsDedupAux (seen ++ [x]) xs

/-- Deduplication preserving first-occurrence order, as a JavaScript `Set`
does. -/
def jsDedup [DecidableEq α] (l : List α) : List α := jsDedupAux [] l

/-- Stable insertion of one element for the ORDER BY model. -/
def insSorted (le : α → α → Bool) (x : α) : List α → List α
  | [] => [x]
  | y :: ys => if le x y then x :: y :: ys else y :: insSorted le x ys

/-- A stable sort modelling SQL ORDER BY (tie order left as arrival order). -/
def insertionSort (le : α → α → Bool) : List α → List α
  | [] => []
  | x :: xs => insSorted le x (insertionSort le xs)

/-- Sort position of a weekday in the `day_of_week` ENUM of the schema. -/
def dayIndex : String → Nat
  | "Monday" => 1
  | "Tuesday" => 2
  | "Wednesday" => 3
  | "Thursday" => 4
  | "Friday" => 5
  | "Saturday" => 6
  | "Sunday" => 7
  | _ => 0

/-- ORDER BY `t.day_of_week, t.start_time` on joined timetable rows. -/
def tRowLe (a b : TRow) : Bool :=
  if dayIndex a.day_of_week = dayIndex b.day_of_week then
    !(strLt b.start_time a.start_time)
  else decide (dayIndex a.day_of_week < dayIndex b.day_of_week)

/-- `SELECT ... FROM students WHERE student_id = ?`. -/
def qStudent (st : DBState) (sid : Int) : List Student :=
  st.students.filter (fun s => decide (s.student_id = sid))

/-- `SELECT ... FROM courses WHERE course_id IN (?)`. -/
def qCoursesIn (st : DBState) (ids : List Int) : List Course :=
  st.courses.filter (fun c => decide (c.course_id ∈ ids))

/-- `SELECT t.*, c.course_code FROM timetables t JOIN courses c ... WHERE
t.course_id IN (?) ORDER BY t.day_of_week, t.start_time`. -/
def qTimetablesFor (st : DBState) (ids : List Int) : List TRow :=
  insertionSort tRowLe
    ((st.timetables.filter (fun t => decide (t.course_id ∈ ids))).flatMap (fun t =>
      (st.courses.filter (fun c => decide (c.course_id = t.course_id))).map (fun c =>
        ⟨t.timetable_id, t.course_id, t.day_of_week, t.start_time, t.end_time,
          c.course_code⟩)))

/-- `SELECT t.*, c.course_code FROM student_courses sc JOIN timetables t JOIN
courses c ... WHERE sc.student_id = ?`. -/
def qEnrolledTimetables (st : DBState) (sid : Int) : List TRow :=
  (st.student_courses.filter (fun p => decide (p.1 = sid))).flatMap (fun p =>
    (st.timetables.filter (fun t => decide (t.course_id = p.2))).flatMap (fun t =>
      (st.courses.filter (fun c => decide (c.course_id = t.course_id))).map (fun c =>
        ⟨t.timetable_id, t.course_id, t.day_of_week, t.start_time, t.end_time,
          c.course_code⟩)))

/-- `SELECT c.course_code FROM student_courses sc JOIN courses c ... WHERE
sc.student_id = ? AND sc.course_id IN (?)`. -/
def qAlreadyEnrolledCodes (st : DBState) (sid : Int) (ids : List Int) : List String :=
  (st.student_courses.filter (fun p => decide (p.1 = sid) && decide (p.2 ∈ ids))).flatMap
    (fun p =>
      (st.courses.filter (fun c => decide (c.course_id = p.2))).map (fun c => c.course_code))

/-- `INSERT INTO student_courses (student_id, course_id) VALUES (?, ?)`. -/
def DBState.insertSC (st : DBState) (sid cid : Int) : DBState :=
  { st with student_courses := st.student_courses ++ [(sid, cid)] }

/-- Outcome of the enroll operation, mirroring the shapes of the objects the
service returns. -/
inductive EnrollResult where
  | invalidStudent
  | invalidCourseList
  | emptyCourseList
  | studentNotFound
  | coursesNotFound (missing : List Int)
  | wrongCollege (codes : List String)
  | clash (day : String) (slot existing : TRow)
  | alreadyEnrolled (codes : List String)
  | storageError
  | ok (count : Nat) (enrolled : List (Int × String × String))
  deriving DecidableEq

/-- Result, committed state and issued statements of one service call. -/
structure EnrollOut where
  res : EnrollResult
  db : DBState
  log : List Query
  deriving DecidableEq

/-- The batch of `INSERT` statements run through `Promise.all`.  `oracle`
says whether the storage layer rejects a given row; every statement is
issued, rejected inserts leave the pending transaction state unchanged, and
the first component records whether all inserts succeeded. -/
def runInserts (oracle : Int → Int → Bool) (sid : Int) :
    List Int → DBState → Bool × DBState × List Query
  | [], pending => (true, pending, [])
  | cid :: rest, pending =>
    let good := !(oracle sid cid)
    let pending2 := if good then pending.insertSC sid cid else pending
    let r := runInserts oracle sid rest pending2
    (good && r.1, r.2.1, .insEnrollment sid cid :: r.2.2)

/-- The transactional body of `saveStudentCourses`, after input validation
and deduplication (`uniq` is the deduplicated course id list).  Every
failure path rolls the transaction back, so it returns the input state. -/
def enrollMain (st : DBState) (oracle : Int → Int → Bool)
    (sid : Int) (uniq : List Int) : EnrollOut :=
  match qStudent st sid with
      | [] => ⟨.studentNotFound, st, [.selStudent sid]⟩
      | student :: _ =>
        let courseRows := qCoursesIn st uniq
        if courseRows.length ≠ uniq.length then
          ⟨.coursesNotFound
              (uniq.filter (fun i => !(decide (i ∈ courseRows.map (·.course_id))))),
            st, [.selStudent sid, .selCourses uniq]⟩
        else
          let invalidCourses :=
            courseRows.filter (fun c => decide (c.college_id ≠ student.college_id))
          if 0 < invalidCourses.length then
            ⟨.wrongCollege (invalidCourses.map (·.course_code)), st,
              [.selStudent sid, .selCourses uniq]⟩
          else
            let timetableRows := qTimetablesFor st uniq
            match checkTimetableClashes timetableRows with
            | .clash d a b =>
                ⟨.clash d a b, st, [.selStudent sid, .selCourses uniq, .selTimetables uniq]⟩
            | .ok =>
              let existing := qEnrolledTimetables st sid
              let log4 := [Query.selStudent sid, .selCourses uniq, .selTimetables uniq,
                .selEnrolledTimetables sid]
              match (if 0 < existing.length then
                  checkTimetableClashes (existing ++ timetableRows) else .ok) with
              | .clash d a b => ⟨.clash d a b, st, log4⟩
              | .ok =>
                let already := qAlreadyEnrolledCodes st sid uniq
                let log5 := log4 ++ [Query.selAlreadyEnrolled sid uniq]
                if 0 < already.length then ⟨.alreadyEnrolled already, st, log5⟩
                else
                  let ins := runInserts oracle sid uniq st
                  if ins.1 then
                    ⟨.ok uniq.length
                        (courseRows.map (fun c => (c.course_id, c.course_code, c.course_name))),
                      ins.2.1, log5 ++ ins.2.2⟩
                  else ⟨.storageError, st, log5 ++ ins.2.2⟩

/-- Model of `saveStudentCourses(studentId, courseIds)`.  `studentId = none`
stands for a missing or non-numeric student id (the code also rejects the
falsy number 0); `courseIds = none` stands for a non-array argument. -/
def saveStudentCourses (st : DBState) (oracle : Int → Int → Bool)
    (studentId : Option Int) (courseIds : Option (List Int)) : EnrollOut :=
  match studentId with
  | none => ⟨.invalidStudent, st, []⟩
  | some sid =>
    if sid = 0 then ⟨.invalidStudent, st, []⟩ else
    match courseIds with
    | none => ⟨.invalidCourseList, st, []⟩
    | some cids =>
      if cids.isEmpty then ⟨.emptyCourseList, st, []⟩ else
      enrollMain st oracle sid (jsDedup cids)

/-- The list of requested course ids the code reports as not found: the
deduplicated ids filtered to those outside the resolved rows. -/
def missingCourseIds (st : DBState) (uniq : List Int) : List Int :=
  uniq.filter (fun i => !(decide (i ∈ (qCoursesIn st uniq).map (·.course_id))))

/-! The admin service: timetable mutation. -/

/-- A row of the conflict queries of the admin service. -/
structure ConflictRow where
  student_id : Int
  name : String
  course_code : String
  day_of_week : String
  start_time : String
  end_time : String
  deriving DecidableEq

/-- Outcome of the admin timetable operations. -/
inductive AdminResult where
  | invalidDay
  | invalidInterval
  | courseNotFound
  | timetableNotFound
  | conflictAdd (conflicts : List ConflictRow)
  | addOk (timetableId courseId : Int) (day startT endT : String)
  | conflictUpd (conflicts : List ConflictRow)
  | updOk (timetableId : Int) (day startT endT : String)
  deriving DecidableEq

/-- Result, committed state and issued statements of one admin call. -/
structure AdminOut where
  res : AdminResult
  db : DBState
  log : List Query
  deriving DecidableEq

/-- The seven accepted weekday names. -/
def validDays : List String :=
  ["Monday", "Tuesday", "Wednesday", "Thursday", "Friday", "Saturday", "Sunday"]

/-- `SELECT DISTINCT sc.student_id, s.name FROM student_courses sc JOIN
students s ... WHERE sc.course_id = ?`. -/
def qEnrolledStudentsOf (st : DBState) (cid : Int) : List (Int × String) :=
  jsDedup ((st.student_courses.filter (fun p => decide (p.2 = cid))).flatMap (fun p =>
    (st.students.filter (fun s => decide (s.student_id = p.1))).map (fun s =>
      (s.student_id, s.name))))

/-- The `SELECT DISTINCT` conflict query of `addTimetable`: slots of other
courses of students enrolled in `cid`, on weekday `day`, with
`t.start_time < endT AND t.end_time > startT`. -/
def qAddConflicts (st : DBState) (cid : Int) (day startT endT : String) :
    List ConflictRow :=
  jsDedup ((st.student_courses.filter (fun p => decide (p.2 = cid))).flatMap (fun p1 =>
    (st.students.filter (fun s => decide (s.student_id = p1.1))).flatMap (fun s =>
      (st.student_courses.filter
          (fun p2 => decide (p2.1 = s.student_id) && decide (p2.2 ≠ cid))).flatMap (fun p2 =>
        (st.timetables.filter (fun t => decide (t.course_id = p2.2) &&
            decide (t.day_of_week = day) && strLt t.start_time endT &&
            strLt startT t.end_time)).flatMap (fun t =>
          (st.courses.filter (fun c => decide (c.course_id = t.course_id))).map (fun c =>
            ⟨s.student_id, s.name, c.course_code, t.day_of_week, t.start_time,
              t.end_time⟩))))))

/-- The `SELECT DISTINCT` conflict query of `updateTimetable`: slots other
than row `tid` of courses of students enrolled in `cid`, on weekday `day`,
overlapping `[startT, endT)`. -/
def qUpdConflicts (st : DBState) (cid : Int) (day startT endT : String) (tid : Int) :
    List ConflictRow :=
  jsDedup ((st.student_courses.filter (fun p => decide (p.2 = cid))).flatMap (fun p1 =>
    (st.students.filter (fun s => decide (s.student_id = p1.1))).flatMap (fun s =>
      (st.student_courses.filter (fun p2 => decide (p2.1 = s.student_id))).flatMap (fun p2 =>
        (st.timetables.filter (fun t => decide (t.course_id = p2.2) &&
            decide (t.day_of_week = day) && strLt t.start_time endT &&
            strLt startT t.end_time && decide (t.timetable_id ≠ tid))).flatMap (fun t =>
          (st.courses.filter (fun c => decide (c.course_id = t.course_id))).map (fun c =>
            ⟨s.student_id, s.name, c.course_code, t.day_of_week, t.start_time,
              t.end_time⟩))))))

/-- Model of `addTimetable(courseId, dayOfWeek, startTime, endTime)`.
`newId` stands for the row id the storage layer assigns on insert. -/
def addTimetable (st : DBState) (newId courseId : Int)
    (dayOfWeek startTime endTime : String) : AdminOut :=
  if !(decide (dayOfWeek ∈ validDays)) then ⟨.invalidDay, st, []⟩
  else if jsGe startTime endTime then ⟨.invalidInterval, st, []⟩
  else
    match st.courses.filter (fun c => decide (c.course_id = courseId)) with
    | [] => ⟨.courseNotFound, st, [.selCourse courseId]⟩
    | _ :: _ =>
      let enrolled := qEnrolledStudentsOf st courseId
      let log2 := [Query.selCourse courseId, .selEnrolledStudents courseId]
      if 0 < enrolled.length then
        let conflicts := qAddConflicts st courseId dayOfWeek startTime endTime
        let log3 := log2 ++ [Query.selAddConflicts courseId dayOfWeek startTime endTime]
        if 0 < conflicts.length then ⟨.conflictAdd conflicts, st, log3⟩
        else
          ⟨.addOk newId courseId dayOfWeek startTime endTime,
            { st with timetables :=
                st.timetables ++ [⟨newId, courseId, dayOfWeek, startTime, endTime⟩] },
            log3 ++ [Query.insTimetable courseId dayOfWeek startTime endTime]⟩
      else
        ⟨.addOk newId courseId dayOfWeek startTime endTime,
          { st with timetables :=
              st.timetables ++ [⟨newId, courseId, dayOfWeek, startTime, endTime⟩] },
          log2 ++ [Query.insTimetable courseId dayOfWeek startTime endTime]⟩

/-- The partial update object of `updateTimetable`; `none` stands for an
absent field. -/
structure TTUpdates where
  dayOfWeek : Option String
  startTime : Option String
  endTime : Option String
  deriving DecidableEq

/-- JavaScript `v || dflt` for an optional string (the empty string is
falsy). -/
def jsOr (v : Option String) (dflt : String) : String :=
  match v with
  | none => dflt
  | some s => if s = "" then dflt else s

/-- JavaScript truthiness test `dayOfWeek && !validDays.includes(dayOfWeek)`. -/
def badDay (v : Option String) : Bool :=
  match v with
  | none => false
  | some d => decide (d ≠ "") && !(decide (d ∈ validDays))

/-- Model of `updateTimetable(timetableId, updates)`. -/
def updateTimetable (st : DBState) (tid : Int) (u : TTUpdates) : AdminOut :=
  if badDay u.dayOfWeek then ⟨.invalidDay, st, []⟩
  else
    match st.timetables.filter (fun t => decide (t.timetable_id = tid)) with
    | [] => ⟨.timetableNotFound, st, [.selTimetableRow tid]⟩
    | ex :: _ =>
      let newDay := jsOr u.dayOfWeek ex.day_of_week
      let newStart := jsOr u.startTime ex.start_time
      let newEnd := jsOr u.endTime ex.end_time
      if jsGe newStart newEnd then ⟨.invalidInterval, st, [.selTimetableRow tid]⟩
      else
        let conflicts := qUpdConflicts st ex.course_id newDay newStart newEnd tid
        let log2 := [Query.selTimetableRow tid,
          .selUpdConflicts ex.course_id newDay newStart newEnd tid]
        if 0 < conflicts.length then ⟨.conflictUpd conflicts, st, log2⟩
        else
          ⟨.updOk tid newDay newStart newEnd,
            { st with timetables := st.timetables.map (fun t =>
                if t.timetable_id = tid then
                  { t with day_of_week := newDay, start_time := newStart, end_time := newEnd }
                else t) },
            log2 ++ [Query.updTimetableRow tid newDay newStart newEnd]⟩

/-! The schedule invariant and database well-formedness. -/

/-- Two timetable rows on the same weekday with overlapping intervals. -/
def sameDayOverlap (a b : Timetable) : Bool :=
  decide (a.day_of_week = b.day_of_week) &&
    timeSlotsOverlap a.start_time a.end_time b.start_time b.end_time

/-- All timetable rows of all courses a student is enrolled in. -/
def studentSlots (st : DBState) (sid : Int) : List Timetable :=
  (st.student_courses.filter (fun p => decide (p.1 = sid))).flatMap (fun p =>
    st.timetables.filter (fun t => decide (t.course_id = p.2)))

/-- The schedule invariant: no student is enrolled in two slots on the same
weekday whose intervals overlap. -/
def scheduleOk (st : DBState) : Prop :=
  ∀ sid : Int, (studentSlots st sid).Pairwise (fun a b => sameDayOverlap a b = false)

/-- Well-formedness facts the schema enforces: the (student, course)
enrollment pairs are unique, timetable row ids are unique, and the foreign
keys from enrollments to students and from timetables to courses resolve. -/
def dbWF (st : DBState) : Prop :=
  st.student_courses.Nodup ∧
  (st.timetables.map (·.timetable_id)).Nodup ∧
  (∀ p ∈ st.student_courses, ∃ s ∈ st.students, s.student_id = p.1) ∧
  (∀ t ∈ st.timetables, ∃ c ∈ st.courses, c.course_id = t.course_id)

/-- Discriminator for the three input-validation failures of the enroll
operation. -/
def isInvalidInput : EnrollResult → Bool
  | .invalidStudent => true
  | .invalidCourseList => true
  | .emptyCourseList => true
  | _ => false

/-- Discriminator for the success outcome of the enroll operation. -/
def isOkResult : EnrollResult → Bool
  | .ok _ _ => true
  | _ => false

/-- Discriminator for the already-enrolled failure of the enroll operation. -/
def isAlreadyEnrolledResult : EnrollResult → Bool
  | .alreadyEnrolled _ => true
  | _ => false

/-! Numeric times of day, for relating the string comparisons above to
comparisons of encoded times. -/

/-- Modelled from the spec: time-of-day values are exchanged as `HH:MM:SS`
strings; `pad2` renders one zero-padded two-digit component. -/
def pad2 (n : Nat) : List Char :=
  if n < 10 then '0' :: (toString n).data else (toString n).data

/-- Modelled from the spec: the zero-padded fixed-width `HH:MM:SS` rendering
of a time of day. -/
def hhmmss (h m s : Nat) : String :=
  ⟨pad2 h ++ (':' :: (pad2 m ++ (':' :: pad2 s)))⟩

/-- The time of day a `(h, m, s)` triple encodes, in seconds. -/
def secondsOfDay (h m s : Nat) : Nat := h * 3600 + m * 60 + s

/-- Modelled from the spec: the half-open overlap test on numeric times. -/
def timeSlotsOverlapNum (start1 end1 start2 end2 : Nat) : Bool :=
  decide (start1 < end2) && decide (start2 < end1)

/-- A valid time of day as an (hours, minutes, seconds) triple. -/
def validHMS (t : Nat × Nat × Nat) : Prop := t.1 < 24 ∧ t.2.1 < 60 ∧ t.2.2 < 60

instance (t : Nat × Nat × Nat) : Decidable (validHMS t) := by
  unfold validHMS
  infer_instance

/-- The `HH:MM:SS` rendering of a time triple. -/
def hms (t : Nat × Nat × Nat) : String := hhmmss t.1 t.2.1 t.2.2

/-- The encoded time of day of a triple, in seconds. -/
def secs (t : Nat × Nat × Nat) : Nat := secondsOfDay t.1 t.2.1 t.2.2

/-! Basic facts about the string comparison and the overlap test. -/

theorem strLtAux_self : ∀ l : List Char, strLtAux l l = false
  | [] => rfl
  | a :: as => by simp [strLtAux, strLtAux_self as]

theorem strLt_self (s : String) : strLt s s = false := strLtAux_self s.data

theorem timeSlotsOverlap_symm (s1 e1 s2 e2 : String) :
    timeSlotsOverlap s1 e1 s2 e2 = timeSlotsOverlap s2 e2 s1 e1 := by
  unfold timeSlotsOverlap; exact Bool.and_comm _ _

/-! The inner bucket scan. -/

theorem firstOverlapping_eq_none_iff {s : TRow} {l : List TRow} :
    firstOverlapping s l = none ↔
      ∀ e2 ∈ l, timeSlotsOverlap s.start_time s.end_time e2.start_time e2.end_time = false := by
  induction l with
  | nil => simp [firstOverlapping]
  | cons a l ih =>
    simp only [firstOverlapping]
    by_cases h : timeSlotsOverlap s.start_time s.end_time a.start_time a.end_time = true
    · simp [h]
    · simp only [Bool.not_eq_true] at h
      simp [h, ih]

theorem firstOverlapping_eq_some {s ex : TRow} : ∀ {l : List TRow},
    firstOverlapping s l = some ex →
      ex ∈ l ∧ timeSlotsOverlap s.start_time s.end_time ex.start_time ex.end_time = true
  | [], h => by simp [firstOverlapping] at h
  | a :: l, h => by
    simp only [firstOverlapping] at h
    by_cases hov : timeSlotsOverlap s.start_time s.end_time a.start_time a.end_time = true
    · rw [if_pos hov] at h
      obtain rfl : a = ex := by simpa using h
      exact ⟨List.mem_cons_self _ _, hov⟩
    · rw [if_neg hov] at h
      obtain ⟨h1, h2⟩ := firstOverlapping_eq_some h
      exact ⟨List.mem_cons_of_mem _ h1, h2⟩

theorem firstOverlapping_filter_some {s ex : TRow} : ∀ {seen : List TRow},
    firstOverlapping s
        (seen.filter (fun e2 => decide (e2.day_of_week = s.day_of_week))) = some ex →
      ∃ l1 l2, seen = l1 ++ ex :: l2 ∧ ex.day_of_week = s.day_of_week ∧
        timeSlotsOverlap s.start_time s.end_time ex.start_time ex.end_time = true ∧
        ∀ e2 ∈ l1, e2.day_of_week = s.day_of_week →
          timeSlotsOverlap s.start_time s.end_time e2.start_time e2.end_time = false
  | [], h => by simp [firstOverlapping] at h
  | a :: seen, h => by
    by_cases hd : a.day_of_week = s.day_of_week
    · rw [List.filter_cons_of_pos (by simpa using hd)] at h
      simp only [firstOverlapping] at h
      by_cases hov : timeSlotsOverlap s.start_time s.end_time a.start_time a.end_time = true
      · rw [if_pos hov] at h
        obtain rfl : a = ex := by simpa using h
        exact ⟨[], seen, rfl, hd, hov, by simp⟩
      · rw [if_neg hov] at h
        obtain ⟨l1, l2, heq, hexd, hexov, hfirst⟩ := firstOverlapping_filter_some h
        refine ⟨a :: l1, l2, by simp [heq], hexd, hexov, ?_⟩
        intro e2 he2 hday
        rcases List.mem_cons.mp he2 with rfl | he2
        · exact Bool.not_eq_true _ ▸ (by simpa using hov)
        · exact hfirst e2 he2 hday
    · rw [List.filter_cons_of_neg (by simpa using hd)] at h
      obtain ⟨l1, l2, heq, hexd, hexov, hfirst⟩ := firstOverlapping_filter_some h
      refine ⟨a :: l1, l2, by simp [heq], hexd, hexov, ?_⟩
      intro e2 he2 hday
      rcases List.mem_cons.mp he2 with rfl | he2
      · exact absurd hday hd
      · exact hfirst e2 he2 hday

theorem firstOverlapping_filter_none {s : TRow} {seen : List TRow}
    (h : firstOverlapping s
        (seen.filter (fun e2 => decide (e2.day_of_week = s.day_of_week))) = none) :
    ∀ e2 ∈ seen, noClash e2 s := by
  intro e2 he2 hday
  exact firstOverlapping_eq_none_iff.mp h e2 (List.mem_filter.mpr ⟨he2, by simpa using hday⟩)

/-! The bucket map of the main loop agrees with the reference scan. -/

theorem checkClashesAux_eq_scanClash :
    ∀ (rest : List TRow) (buckets : String → List TRow) (seen : List TRow),
      (∀ d, buckets d = seen.filter (fun e2 => decide (e2.day_of_week = d))) →
      checkClashesAux buckets rest = scanClash seen rest
  | [], _, _, _ => rfl
  | slot :: rest, buckets, seen, hb => by
    simp only [checkClashesAux, scanClash, hb slot.day_of_week]
    cases h : firstOverlapping slot
        (seen.filter (fun e2 => decide (e2.day_of_week = slot.day_of_week))) with
    | some ex => rfl
    | none =>
      apply checkClashesAux_eq_scanClash
      intro d
      rw [hb d, List.filter_append]
      by_cases hd : d = slot.day_of_week
      · subst hd; simp
      · rw [if_neg hd]
        have : ¬ (slot.day_of_week = d) := fun hc => hd hc.symm
        simp [this]

theorem checkTimetableClashes_eq_scanClash (l : List TRow) :
    checkTimetableClashes l = scanClash [] l :=
  checkClashesAux_eq_scanClash l _ [] (fun _ => rfl)

/-! Success of the scan is exactly pairwise absence of same-day overlap. -/

theorem scanClash_eq_ok_iff : ∀ (rest seen : List TRow),
    scanClash seen rest = .ok ↔
      (rest.Pairwise noClash ∧ ∀ e2 ∈ seen, ∀ s ∈ rest, noClash e2 s)
  | [], seen => by simp [scanClash]
  | slot :: rest, seen => by
    simp only [scanClash]
    cases h : firstOverlapping slot
        (seen.filter (fun e2 => decide (e2.day_of_week = slot.day_of_week))) with
    | some ex =>
      constructor
      · intro h'; exact absurd h' (by simp)
      · rintro ⟨_, hcross⟩
        obtain ⟨hmem, hov⟩ := firstOverlapping_eq_some h
        obtain ⟨hex, hexd⟩ := List.mem_filter.mp hmem
        have : noClash ex slot := hcross ex hex slot (List.mem_cons_self _ _)
        rw [this (by simpa using hexd)] at hov
        exact absurd hov (by simp)
    | none =>
      rw [scanClash_eq_ok_iff rest (seen ++ [slot])]
      have hseen : ∀ e2 ∈ seen, noClash e2 slot := firstOverlapping_filter_none h
      constructor
      · rintro ⟨hp, hcross⟩
        refine ⟨List.pairwise_cons.mpr ⟨?_, hp⟩, ?_⟩
        · intro b hb
          exact hcross slot (by simp) b hb
        · intro e2 he2 s hs
          rcases List.mem_cons.mp hs with rfl | hs
          · exact hseen e2 he2
          · exact hcross e2 (by simp [he2]) s hs
      · rintro ⟨hp, hcross⟩
        obtain ⟨hhead, hp⟩ := List.pairwise_cons.mp hp
        refine ⟨hp, ?_⟩
        intro e2 he2 s hs
        rcases List.mem_append.mp he2 with he2 | he2
        · exact hcross e2 he2 s (List.mem_cons_of_mem _ hs)
        · obtain rfl : e2 = slot := by simpa using he2
          exact hhead s hs

theorem checkTimetableClashes_eq_ok_iff (l : List TRow) :
    checkTimetableClashes l = .ok ↔ l.Pairwise noClash := by
  rw [checkTimetableClashes_eq_scanClash, scanClash_eq_ok_iff]
  simp

/-! A reported clash is the first conflicting pair in scan order. -/

theorem scanClash_eq_clash : ∀ (rest seen : List TRow) {d : String} {s e : TRow},
    seen.Pairwise noClash → scanClash seen rest = .clash d s e →
      d = s.day_of_week ∧ e.day_of_week = s.day_of_week ∧
      timeSlotsOverlap s.start_time s.end_time e.start_time e.end_time = true ∧
      ∃ l1 l2 l3, seen ++ rest = l1 ++ e :: (l2 ++ s :: l3) ∧
        (l1 ++ e :: l2).Pairwise noClash ∧
        ∀ e2 ∈ l1, e2.day_of_week = s.day_of_week →
          timeSlotsOverlap s.start_time s.end_time e2.start_time e2.end_time = false
  | [], seen, d, s, e, _, h => by simp [scanClash] at h
  | slot :: rest, seen, d, s, e, hseen, h => by
    simp only [scanClash] at h
    cases hfo : firstOverlapping slot
        (seen.filter (fun e2 => decide (e2.day_of_week = slot.day_of_week))) with
    | some ex =>
      rw [hfo] at h
      obtain ⟨rfl, rfl, rfl⟩ : d = slot.day_of_week ∧ slot = s ∧ ex = e := by
        cases h; exact ⟨rfl, rfl, rfl⟩
      obtain ⟨l1, l2, hs2, hexd, hexov, hfirst⟩ := firstOverlapping_filter_some hfo
      refine ⟨rfl, hexd, hexov, l1, l2, rest, ?_, hs2 ▸ hseen, hfirst⟩
      rw [hs2]; simp
    | none =>
      rw [hfo] at h
      have hcross : ∀ e2 ∈ seen, noClash e2 slot := firstOverlapping_filter_none hfo
      have hseen2 : (seen ++ [slot]).Pairwise noClash := by
        rw [List.pairwise_append]
        exact ⟨hseen, by simp, by simpa using hcross⟩
      obtain ⟨h1, h2, h3, l1, l2, l3, heq, hp, hfirst⟩ :=
        scanClash_eq_clash rest (seen ++ [slot]) hseen2 h
      exact ⟨h1, h2, h3, l1, l2, l3, by simpa using heq, hp, hfirst⟩

/-- C1: checkTimetableClashes reports success iff no two slots of the input
lie on the same weekday with overlapping intervals under the half-open test;
in particular at most one slot per weekday always succeeds, back-to-back
slots on the same weekday succeed, and two identical well-formed intervals
on the same weekday fail. -/
theorem claim_C1_clash_check_ok_iff (l : List TRow) :
    (checkTimetableClashes l = .ok ↔ l.Pairwise noClash) ∧
    ((∀ d ∈ l.map (·.day_of_week),
        (l.filter (fun r => decide (r.day_of_week = d))).length ≤ 1) →
      checkTimetableClashes l = .ok) ∧
    (∀ a b : TRow, a.day_of_week = b.day_of_week → a.end_time = b.start_time →
      checkTimetableClashes [a, b] = .ok ∧ checkTimetableClashes [b, a] = .ok) ∧
    (∀ a b : TRow, a.day_of_week = b.day_of_week → a.start_time = b.start_time →
      a.end_time = b.end_time → strLt a.start_time a.end_time = true →
      checkTimetableClashes [a, b] ≠ .ok) := by
  refine ⟨checkTimetableClashes_eq_ok_iff l, ?_, ?_, ?_⟩
  · intro hcount
    rw [checkTimetableClashes_eq_ok_iff, List.pairwise_iff_forall_sublist]
    intro a b hsub
    intro hday
    exfalso
    have hmem : a ∈ l := hsub.subset (by simp)
    have hd : a.day_of_week ∈ l.map (·.day_of_week) := List.mem_map_of_mem _ hmem
    have hfil : [a, b].filter (fun r => decide (r.day_of_week = a.day_of_week)) = [a, b] := by
      simp [List.filter, hday.symm]
    have hsub2 := hsub.filter (fun r => decide (r.day_of_week = a.day_of_week))
    rw [hfil] at hsub2
    have h2 : 2 ≤ (l.filter (fun r => decide (r.day_of_week = a.day_of_week))).length := by
      simpa using hsub2.length_le
    have h1 := hcount _ hd
    omega
  · intro a b hday hend
    constructor
    · rw [checkTimetableClashes_eq_ok_iff]
      refine List.pairwise_cons.mpr ⟨?_, by simp⟩
      intro b' hb'
      intro _
      have hbe : b' = b := by simpa using hb'
      have h1 : strLt b'.start_time a.end_time = false := by
        rw [hbe, ← hend]; exact strLt_self _
      simp [timeSlotsOverlap, h1]
    · rw [checkTimetableClashes_eq_ok_iff]
      refine List.pairwise_cons.mpr ⟨?_, by simp⟩
      intro a' ha'
      intro _
      have hae : a' = a := by simpa using ha'
      have h2 : strLt b.start_time a'.end_time = false := by
        rw [hae, hend]; exact strLt_self _
      simp [timeSlotsOverlap, h2]
  · intro a b hday hstart hend hwf hok
    rw [checkTimetableClashes_eq_ok_iff] at hok
    have := (List.pairwise_cons.mp hok).1 b (by simp) hday
    rw [timeSlotsOverlap, ← hstart, ← hend, hwf] at this
    simp at this

/-- Witness for C1 at a two-slot input with at most one slot per weekday. -/
theorem claim_C1_witness :
    checkTimetableClashes
      [⟨1, 1, "Monday", "09:00:00", "10:00:00", "CS101"⟩,
       ⟨2, 2, "Tuesday", "09:00:00", "10:00:00", "MA204"⟩] = .ok :=
  (claim_C1_clash_check_ok_iff
      [⟨1, 1, "Monday", "09:00:00", "10:00:00", "CS101"⟩,
       ⟨2, 2, "Tuesday", "09:00:00", "10:00:00", "MA204"⟩]).2.1 (by decide)

/-- C7: a reported clash names the weekday and both slots (hence both course
codes and both intervals) of the first conflicting pair in input scan order:
the input decomposes around the reported pair, every slot pair before the
incoming slot is clash-free, and no earlier same-weekday slot overlaps the
incoming slot. -/
theorem claim_C7_first_conflicting_pair (l : List TRow) (d : String) (s e : TRow) :
    checkTimetableClashes l = .clash d s e →
      d = s.day_of_week ∧ e.day_of_week = s.day_of_week ∧
      timeSlotsOverlap s.start_time s.end_time e.start_time e.end_time = true ∧
      ∃ l1 l2 l3, l = l1 ++ e :: (l2 ++ s :: l3) ∧
        (l1 ++ e :: l2).Pairwise noClash ∧
        ∀ e2 ∈ l1, e2.day_of_week = s.day_of_week →
          timeSlotsOverlap s.start_time s.end_time e2.start_time e2.end_time = false := by
  intro h
  rw [checkTimetableClashes_eq_scanClash] at h
  simpa using scanClash_eq_clash l [] (by simp) h

/-- Witness for C7 at a two-slot input with identical intervals. -/
theorem claim_C7_witness :
    "Monday" = (⟨2, 2, "Monday", "09:00:00", "10:00:00", "MA204"⟩ : TRow).day_of_week ∧
    (⟨1, 1, "Monday", "09:00:00", "10:00:00", "CS101"⟩ : TRow).day_of_week =
      (⟨2, 2, "Monday", "09:00:00", "10:00:00", "MA204"⟩ : TRow).day_of_week ∧
    timeSlotsOverlap "09:00:00" "10:00:00" "09:00:00" "10:00:00" = true ∧
    ∃ l1 l2 l3,
      [⟨1, 1, "Monday", "09:00:00", "10:00:00", "CS101"⟩,
       ⟨2, 2, "Monday", "09:00:00", "10:00:00", "MA204"⟩] =
        l1 ++ (⟨1, 1, "Monday", "09:00:00", "10:00:00", "CS101"⟩ : TRow) ::
          (l2 ++ (⟨2, 2, "Monday", "09:00:00", "10:00:00", "MA204"⟩ : TRow) :: l3) ∧
      (l1 ++ (⟨1, 1, "Monday", "09:00:00", "10:00:00", "CS101"⟩ : TRow) :: l2).Pairwise noClash ∧
      ∀ e2 ∈ l1, e2.day_of_week = "Monday" →
        timeSlotsOverlap "09:00:00" "10:00:00" e2.start_time e2.end_time = false :=
  claim_C7_first_conflicting_pair
    [⟨1, 1, "Monday", "09:00:00", "10:00:00", "CS101"⟩,
     ⟨2, 2, "Monday", "09:00:00", "10:00:00", "MA204"⟩]
    "Monday" ⟨2, 2, "Monday", "09:00:00", "10:00:00", "MA204"⟩
    ⟨1, 1, "Monday", "09:00:00", "10:00:00", "CS101"⟩ (by decide)

/-- C8: the pairwise overlap test is symmetric, and reflexive on well-formed
intervals (start strictly before end under the string comparison the code
uses). -/
theorem claim_C8_overlap_symm_refl :
    (∀ s1 e1 s2 e2 : String,
      timeSlotsOverlap s1 e1 s2 e2 = timeSlotsOverlap s2 e2 s1 e1) ∧
    (∀ s e : String, strLt s e = true → timeSlotsOverlap s e s e = true) := by
  refine ⟨timeSlotsOverlap_symm, ?_⟩
  intro s e h
  simp [timeSlotsOverlap, h]

/-- Witness for C8 at a concrete well-formed interval. -/
theorem claim_C8_witness :
    timeSlotsOverlap "09:00:00" "10:00:00" "09:00:00" "10:00:00" = true :=
  claim_C8_overlap_symm_refl.2 "09:00:00" "10:00:00" (by decide)

/-! Properties of the Set-based deduplication. -/

theorem mem_jsDedupAux [DecidableEq α] {x : α} :
    ∀ {l seen : List α}, x ∈ jsDedupAux seen l ↔ x ∈ l ∧ x ∉ seen
  | [], seen => by simp [jsDedupAux]
  | y :: ys, seen => by
    simp only [jsDedupAux]
    by_cases hy : y ∈ seen
    · rw [if_pos hy, mem_jsDedupAux]
      constructor
      · rintro ⟨h1, h2⟩; exact ⟨List.mem_cons_of_mem _ h1, h2⟩
      · rintro ⟨h1, h2⟩
        rcases List.mem_cons.mp h1 with rfl | h1
        · exact absurd hy h2
        · exact ⟨h1, h2⟩
    · rw [if_neg hy]
      constructor
      · intro h
        rcases List.mem_cons.mp h with rfl | h
        · exact ⟨List.mem_cons_self _ _, hy⟩
        · obtain ⟨h1, h2⟩ := mem_jsDedupAux.mp h
          refine ⟨List.mem_cons_of_mem _ h1, fun hc => h2 (by simp [hc])⟩
      · rintro ⟨h1, h2⟩
        rcases List.mem_cons.mp h1 with rfl | h1
        · exact List.mem_cons_self _ _
        · by_cases hxy : x = y
          · subst hxy; exact List.mem_cons_self _ _
          · exact List.mem_cons_of_mem _
              (mem_jsDedupAux.mpr ⟨h1, by simp [hxy, h2]⟩)

theorem mem_jsDedup [DecidableEq α] {x : α} {l : List α} : x ∈ jsDedup l ↔ x ∈ l := by
  simp [jsDedup, mem_jsDedupAux]

theorem jsDedup_eq_nil_iff [DecidableEq α] {l : List α} : jsDedup l = [] ↔ l = [] := by
  rw [List.eq_nil_iff_forall_not_mem, List.eq_nil_iff_forall_not_mem]
  simp [mem_jsDedup]

theorem jsDedupAux_nodup [DecidableEq α] :
    ∀ (l seen : List α), (jsDedupAux seen l).Nodup
  | [], _ => List.nodup_nil
  | y :: ys, seen => by
    simp only [jsDedupAux]
    by_cases hy : y ∈ seen
    · rw [if_pos hy]; exact jsDedupAux_nodup ys seen
    · rw [if_neg hy]
      refine List.nodup_cons.mpr ⟨?_, jsDedupAux_nodup ys _⟩
      intro hc
      exact (mem_jsDedupAux.mp hc).2 (by simp)

theorem jsDedup_nodup [DecidableEq α] (l : List α) : (jsDedup l).Nodup :=
  jsDedupAux_nodup l []

/-! The batch insert loop. -/

theorem runInserts_db_of_true {oracle : Int → Int → Bool} {sid : Int} :
    ∀ (ids : List Int) (pending : DBState),
      (runInserts oracle sid ids pending).1 = true →
      (runInserts oracle sid ids pending).2.1 =
        { pending with student_courses :=
            pending.student_courses ++ ids.map (fun c => (sid, c)) }
  | [], pending, _ => by simp [runInserts]
  | cid :: rest, pending, h => by
    simp only [runInserts] at h ⊢
    have hg : oracle sid cid = false := by
      by_contra hc
      rw [Bool.not_eq_false] at hc
      simp [hc] at h
    simp only [hg, Bool.not_false, Bool.true_and, if_pos] at h ⊢
    rw [runInserts_db_of_true rest _ h]
    simp [DBState.insertSC]

/-- C3: every enroll request either creates one enrollment row per distinct
requested course (success) or leaves the store untouched (any failure),
including when the storage layer rejects part of the batch insert. -/
theorem claim_C3_all_or_nothing (st : DBState) (oracle : Int → Int → Bool)
    (studentId : Option Int) (courseIds : Option (List Int)) :
    ((saveStudentCourses st oracle studentId courseIds).db = st ∧
      isOkResult (saveStudentCourses st oracle studentId courseIds).res = false) ∨
    (isOkResult (saveStudentCourses st oracle studentId courseIds).res = true ∧
      ∃ sid cids, studentId = some sid ∧ courseIds = some cids ∧
        (saveStudentCourses st oracle studentId courseIds).db =
          { st with student_courses :=
              st.student_courses ++ (jsDedup cids).map (fun c => (sid, c)) }) := by
  rcases hout : saveStudentCourses st oracle studentId courseIds with ⟨res, db, log⟩
  dsimp only
  simp only [saveStudentCourses, enrollMain] at hout
  repeat' split at hout
  all_goals cases hout
  all_goals first
    | exact Or.inl ⟨rfl, rfl⟩
    | (rename_i hins
       exact Or.inr ⟨rfl, _, _, rfl, rfl, runInserts_db_of_true _ _ hins⟩)

/-- C9: a missing or non-numeric student id, a non-array course list, or an
empty course list is rejected as invalid input, with no storage statement
issued and the store unchanged. -/
theorem claim_C9_invalid_inputs (st : DBState) (oracle : Int → Int → Bool)
    (studentId : Option Int) (courseIds : Option (List Int))
    (h : studentId = none ∨ courseIds = none ∨ courseIds = some []) :
    isInvalidInput (saveStudentCourses st oracle studentId courseIds).res = true ∧
    (saveStudentCourses st oracle studentId courseIds).db = st ∧
    (saveStudentCourses st oracle studentId courseIds).log = [] := by
  rcases h with rfl | rfl | rfl
  · simp [saveStudentCourses, isInvalidInput]
  · cases studentId with
    | none => simp [saveStudentCourses, isInvalidInput]
    | some sid =>
      by_cases hs : sid = 0 <;> simp [saveStudentCourses, hs, isInvalidInput]
  · cases studentId with
    | none => simp [saveStudentCourses, isInvalidInput]
    | some sid =>
      by_cases hs : sid = 0 <;> simp [saveStudentCourses, hs, isInvalidInput]

/-- Witness for C9 at a concrete invalid input. -/
theorem claim_C9_witness :
    isInvalidInput
        (saveStudentCourses ⟨[], [], [], []⟩ (fun _ _ => false) none none).res = true ∧
    (saveStudentCourses ⟨[], [], [], []⟩ (fun _ _ => false) none none).db =
      ⟨[], [], [], []⟩ ∧
    (saveStudentCourses ⟨[], [], [], []⟩ (fun _ _ => false) none none).log = [] :=
  claim_C9_invalid_inputs ⟨[], [], [], []⟩ (fun _ _ => false) none none (Or.inl rfl)

/-! Missing course ids and the length test of the enroll operation. -/

theorem mem_missingCourseIds {st : DBState} {uniq : List Int} {i : Int} :
    i ∈ missingCourseIds st uniq ↔ i ∈ uniq ∧ ¬ ∃ c ∈ st.courses, c.course_id = i := by
  simp only [missingCourseIds, List.mem_filter, Bool.not_eq_true', decide_eq_false_iff_not,
    List.mem_map]
  constructor
  · rintro ⟨hu, hn⟩
    refine ⟨hu, ?_⟩
    rintro ⟨c, hc, hid⟩
    exact hn ⟨c, List.mem_filter.mpr ⟨hc, by simp [hid, hu]⟩, hid⟩
  · rintro ⟨hu, hn⟩
    refine ⟨hu, ?_⟩
    rintro ⟨c, hc, hid⟩
    exact hn ⟨c, (List.mem_filter.mp hc).1, hid⟩

theorem qCoursesIn_length_eq_iff {st : DBState} {uniq : List Int}
    (hpk : (st.courses.map (·.course_id)).Nodup) (hu : uniq.Nodup) :
    (qCoursesIn st uniq).length = uniq.length ↔ missingCourseIds st uniq = [] := by
  have hsub : (qCoursesIn st uniq).map (·.course_id) ⊆ uniq := by
    intro x hx
    obtain ⟨c, hc, rfl⟩ := List.mem_map.mp hx
    simpa using (List.mem_filter.mp hc).2
  have hnd : ((qCoursesIn st uniq).map (·.course_id)).Nodup :=
    ((List.filter_sublist _).map _).nodup hpk
  constructor
  · intro hlen
    rw [List.eq_nil_iff_forall_not_mem]
    intro i hi
    obtain ⟨hiu, hno⟩ := mem_missingCourseIds.mp hi
    have hnotin : i ∉ (qCoursesIn st uniq).map (·.course_id) := by
      intro hin
      obtain ⟨c, hc, hid⟩ := List.mem_map.mp hin
      exact hno ⟨c, (List.mem_filter.mp hc).1, hid⟩
    have hsub2 : (qCoursesIn st uniq).map (·.course_id) ⊆ uniq.erase i := by
      intro x hx
      have hxu : x ∈ uniq := hsub hx
      have hxi : x ≠ i := fun h => hnotin (h ▸ hx)
      exact (List.mem_erase_of_ne hxi).mpr hxu
    have hle := (hnd.subperm hsub2).length_le
    rw [List.length_erase_of_mem hiu, List.length_map] at hle
    have hpos : 0 < uniq.length := List.length_pos_of_mem hiu
    omega
  · intro hmiss
    have h1 : uniq ⊆ (qCoursesIn st uniq).map (·.course_id) := by
      intro i hi
      by_contra hno
      have hm : i ∈ missingCourseIds st uniq := by
        refine mem_missingCourseIds.mpr ⟨hi, ?_⟩
        rintro ⟨c, hc, hid⟩
        exact hno (List.mem_map.mpr ⟨c, List.mem_filter.mpr ⟨hc, by simp [hid, hi]⟩, hid⟩)
      rw [hmiss] at hm
      exact absurd hm (List.not_mem_nil i)
    have hle1 := (hu.subperm h1).length_le
    have hle2 := (hnd.subperm hsub).length_le
    rw [List.length_map] at hle1 hle2
    omega

theorem runInserts_log {oracle : Int → Int → Bool} {sid : Int} :
    ∀ (ids : List Int) (pending : DBState),
      (runInserts oracle sid ids pending).2.2 = ids.map (Query.insEnrollment sid ·)
  | [], _ => rfl
  | cid :: rest, pending => by
    simp only [runInserts, List.map_cons]
    rw [runInserts_log rest]

theorem runInserts_true_of_all {oracle : Int → Int → Bool} {sid : Int} :
    ∀ (ids : List Int) (pending : DBState),
      (∀ c ∈ ids, oracle sid c = false) → (runInserts oracle sid ids pending).1 = true
  | [], _, _ => rfl
  | cid :: rest, pending, h => by
    have hg : oracle sid cid = false := h cid (by simp)
    simp only [runInserts, hg, Bool.not_false, Bool.true_and, if_pos]
    exact runInserts_true_of_all rest _ (fun c hc => h c (List.mem_cons_of_mem _ hc))

/-- C2: the enroll operation applies its guard checks in the fixed order
(student exists; deduplicated requested courses all exist, naming exactly
the missing ids; all courses in the student college, naming the offending
codes; no internal timetable overlap among the requested courses; no overlap
of the requested plus already-enrolled timetables; no requested course
already enrolled), the first failing check determines the returned outcome,
and every failure leaves the state unchanged.  The course table is assumed
to have unique primary keys. -/
theorem claim_C2_guard_order (st : DBState) (oracle : Int → Int → Bool) (sid : Int)
    (cids : List Int) (hsid : sid ≠ 0) (hcids : cids ≠ [])
    (hpk : (st.courses.map (·.course_id)).Nodup) :
    (qStudent st sid = [] →
      saveStudentCourses st oracle (some sid) (some cids) =
        ⟨.studentNotFound, st, [.selStudent sid]⟩) ∧
    (∀ stu rest, qStudent st sid = stu :: rest →
      missingCourseIds st (jsDedup cids) ≠ [] →
      saveStudentCourses st oracle (some sid) (some cids) =
        ⟨.coursesNotFound (missingCourseIds st (jsDedup cids)), st,
          [.selStudent sid, .selCourses (jsDedup cids)]⟩ ∧
      (∀ i : Int, i ∈ missingCourseIds st (jsDedup cids) ↔
        i ∈ jsDedup cids ∧ ¬ ∃ c ∈ st.courses, c.course_id = i)) ∧
    (∀ stu rest, qStudent st sid = stu :: rest →
      missingCourseIds st (jsDedup cids) = [] →
      (qCoursesIn st (jsDedup cids)).filter
          (fun c => decide (c.college_id ≠ stu.college_id)) ≠ [] →
      saveStudentCourses st oracle (some sid) (some cids) =
        ⟨.wrongCollege (((qCoursesIn st (jsDedup cids)).filter
            (fun c => decide (c.college_id ≠ stu.college_id))).map (·.course_code)), st,
          [.selStudent sid, .selCourses (jsDedup cids)]⟩) ∧
    (∀ stu rest, qStudent st sid = stu :: rest →
      missingCourseIds st (jsDedup cids) = [] →
      (qCoursesIn st (jsDedup cids)).filter
          (fun c => decide (c.college_id ≠ stu.college_id)) = [] →
      ∀ d a b, checkTimetableClashes (qTimetablesFor st (jsDedup cids)) = .clash d a b →
      saveStudentCourses st oracle (some sid) (some cids) =
        ⟨.clash d a b, st,
          [.selStudent sid, .selCourses (jsDedup cids), .selTimetables (jsDedup cids)]⟩) ∧
    (∀ stu rest, qStudent st sid = stu :: rest →
      missingCourseIds st (jsDedup cids) = [] →
      (qCoursesIn st (jsDedup cids)).filter
          (fun c => decide (c.college_id ≠ stu.college_id)) = [] →
      checkTimetableClashes (qTimetablesFor st (jsDedup cids)) = .ok →
      ∀ d a b, checkTimetableClashes
          (qEnrolledTimetables st sid ++ qTimetablesFor st (jsDedup cids)) = .clash d a b →
      saveStudentCourses st oracle (some sid) (some cids) =
        ⟨.clash d a b, st,
          [.selStudent sid, .selCourses (jsDedup cids), .selTimetables (jsDedup cids),
            .selEnrolledTimetables sid]⟩) ∧
    (∀ stu rest, qStudent st sid = stu :: rest →
      missingCourseIds st (jsDedup cids) = [] →
      (qCoursesIn st (jsDedup cids)).filter
          (fun c => decide (c.college_id ≠ stu.college_id)) = [] →
      checkTimetableClashes (qTimetablesFor st (jsDedup cids)) = .ok →
      checkTimetableClashes
          (qEnrolledTimetables st sid ++ qTimetablesFor st (jsDedup cids)) = .ok →
      qAlreadyEnrolledCodes st sid (jsDedup cids) ≠ [] →
      saveStudentCourses st oracle (some sid) (some cids) =
        ⟨.alreadyEnrolled (qAlreadyEnrolledCodes st sid (jsDedup cids)), st,
          [.selStudent sid, .selCourses (jsDedup cids), .selTimetables (jsDedup cids),
            .selEnrolledTimetables sid, .selAlreadyEnrolled sid (jsDedup cids)]⟩) ∧
    (∀ stu rest, qStudent st sid = stu :: rest →
      missingCourseIds st (jsDedup cids) = [] →
      (qCoursesIn st (jsDedup cids)).filter
          (fun c => decide (c.college_id ≠ stu.college_id)) = [] →
      checkTimetableClashes (qTimetablesFor st (jsDedup cids)) = .ok →
      checkTimetableClashes
          (qEnrolledTimetables st sid ++ qTimetablesFor st (jsDedup cids)) = .ok →
      qAlreadyEnrolledCodes st sid (jsDedup cids) = [] →
      (∀ c ∈ jsDedup cids, oracle sid c = false) →
      saveStudentCourses st oracle (some sid) (some cids) =
        ⟨.ok (jsDedup cids).length
            ((qCoursesIn st (jsDedup cids)).map
              (fun c => (c.course_id, c.course_code, c.course_name))),
          { st with student_courses :=
              st.student_courses ++ (jsDedup cids).map (fun c => (sid, c)) },
          [.selStudent sid, .selCourses (jsDedup cids), .selTimetables (jsDedup cids),
            .selEnrolledTimetables sid, .selAlreadyEnrolled sid (jsDedup cids)] ++
            (jsDedup cids).map (Query.insEnrollment sid ·)⟩) := by
  have hE : cids.isEmpty = false := by
    cases cids with
    | nil => exact absurd rfl hcids
    | cons a l => rfl
  have hwrap : saveStudentCourses st oracle (some sid) (some cids) =
      enrollMain st oracle sid (jsDedup cids) := by
    simp [saveStudentCourses, hsid, hE]
  refine ⟨?_, ?_, ?_, ?_, ?_, ?_, ?_⟩
  · intro h1
    rw [hwrap]
    simp [enrollMain, h1]
  · intro stu rest hstu hmiss
    have hlen : (qCoursesIn st (jsDedup cids)).length ≠ (jsDedup cids).length := by
      intro he
      exact hmiss ((qCoursesIn_length_eq_iff hpk (jsDedup_nodup _)).mp he)
    refine ⟨?_, fun i => mem_missingCourseIds⟩
    rw [hwrap]
    simp only [enrollMain, hstu]
    rw [if_pos hlen]
    rfl
  · intro stu rest hstu hmiss hwrong
    have hlen : ¬((qCoursesIn st (jsDedup cids)).length ≠ (jsDedup cids).length) :=
      not_not_intro ((qCoursesIn_length_eq_iff hpk (jsDedup_nodup _)).mpr hmiss)
    rw [hwrap]
    simp only [enrollMain, hstu]
    rw [if_neg hlen, if_pos (List.length_pos.mpr hwrong)]
  · intro stu rest hstu hmiss hwrong d a b hclash
    have hlen : ¬((qCoursesIn st (jsDedup cids)).length ≠ (jsDedup cids).length) :=
      not_not_intro ((qCoursesIn_length_eq_iff hpk (jsDedup_nodup _)).mpr hmiss)
    rw [hwrap]
    simp only [enrollMain, hstu]
    rw [if_neg hlen, if_neg (by rw [hwrong]; simp), hclash]
  · intro stu rest hstu hmiss hwrong hint4 d a b hcomb
    have hlen : ¬((qCoursesIn st (jsDedup cids)).length ≠ (jsDedup cids).length) :=
      not_not_intro ((qCoursesIn_length_eq_iff hpk (jsDedup_nodup _)).mpr hmiss)
    rw [hwrap]
    simp only [enrollMain, hstu]
    rw [if_neg hlen, if_neg (by rw [hwrong]; simp), hint4]
    by_cases hex : 0 < (qEnrolledTimetables st sid).length
    · rw [if_pos hex, hcomb]
    · exfalso
      have hnil : qEnrolledTimetables st sid = [] := by
        rw [← List.length_eq_zero]; omega
      rw [hnil, List.nil_append, hint4] at hcomb
      exact absurd hcomb (by simp)
  · intro stu rest hstu hmiss hwrong hint4 hcomb hal
    have hlen : ¬((qCoursesIn st (jsDedup cids)).length ≠ (jsDedup cids).length) :=
      not_not_intro ((qCoursesIn_length_eq_iff hpk (jsDedup_nodup _)).mpr hmiss)
    rw [hwrap]
    simp only [enrollMain, hstu]
    rw [if_neg hlen, if_neg (by rw [hwrong]; simp), hint4]
    have hscrut : (if 0 < (qEnrolledTimetables st sid).length then
        checkTimetableClashes (qEnrolledTimetables st sid ++ qTimetablesFor st (jsDedup cids))
        else .ok) = ClashCheck.ok := by
      by_cases hex : 0 < (qEnrolledTimetables st sid).length
      · rw [if_pos hex, hcomb]
      · rw [if_neg hex]
    rw [hscrut, if_pos (List.length_pos.mpr hal)]
    rfl
  · intro stu rest hstu hmiss hwrong hint4 hcomb hal hins
    have hlen : ¬((qCoursesIn st (jsDedup cids)).length ≠ (jsDedup cids).length) :=
      not_not_intro ((qCoursesIn_length_eq_iff hpk (jsDedup_nodup _)).mpr hmiss)
    rw [hwrap]
    simp only [enrollMain, hstu]
    rw [if_neg hlen, if_neg (by rw [hwrong]; simp), hint4]
    have hscrut : (if 0 < (qEnrolledTimetables st sid).length then
        checkTimetableClashes (qEnrolledTimetables st sid ++ qTimetablesFor st (jsDedup cids))
        else .ok) = ClashCheck.ok := by
      by_cases hex : 0 < (qEnrolledTimetables st sid).length
      · rw [if_pos hex, hcomb]
      · rw [if_neg hex]
    rw [hscrut, if_neg (by rw [hal]; simp)]
    have htrue : (runInserts oracle sid (jsDedup cids) st).1 = true :=
      runInserts_true_of_all _ _ hins
    rw [if_pos htrue, runInserts_db_of_true _ _ htrue, runInserts_log]
    simp

/-- Witness for C2: the first guard firing on a concrete empty store. -/
theorem claim_C2_witness :
    saveStudentCourses ⟨[], [], [], []⟩ (fun _ _ => false) (some 5) (some [7]) =
      ⟨.studentNotFound, ⟨[], [], [], []⟩, [.selStudent 5]⟩ :=
  (claim_C2_guard_order ⟨[], [], [], []⟩ (fun _ _ => false) 5 [7]
      (by decide) (by decide) (by decide)).1 rfl

/-! Inversion facts about the enroll body. -/

theorem enrollMain_ok_already_nil {st : DBState} {oracle : Int → Int → Bool}
    {sid : Int} {uniq : List Int}
    (hok : isOkResult (enrollMain st oracle sid uniq).res = true) :
    qAlreadyEnrolledCodes st sid uniq = [] := by
  rcases hout : enrollMain st oracle sid uniq with ⟨res, db, log⟩
  rw [hout] at hok
  dsimp only at hok
  simp only [enrollMain] at hout
  repeat' split at hout
  all_goals cases hout
  all_goals simp [isOkResult] at hok
  all_goals rename_i hal hins
  all_goals rw [← List.length_eq_zero]; omega

theorem enrollMain_db_of_not_ok {st : DBState} {oracle : Int → Int → Bool}
    {sid : Int} {uniq : List Int}
    (hok : isOkResult (enrollMain st oracle sid uniq).res = false) :
    (enrollMain st oracle sid uniq).db = st := by
  rcases hout : enrollMain st oracle sid uniq with ⟨res, db, log⟩
  rw [hout] at hok
  dsimp only at hok ⊢
  simp only [enrollMain] at hout
  repeat' split at hout
  all_goals cases hout
  all_goals simp [isOkResult] at hok ⊢

theorem enrollMain_alreadyEnrolled_inv {st : DBState} {oracle : Int → Int → Bool}
    {sid : Int} {uniq : List Int} {codes : List String}
    (h : (enrollMain st oracle sid uniq).res = .alreadyEnrolled codes) :
    codes = qAlreadyEnrolledCodes st sid uniq := by
  rcases hout : enrollMain st oracle sid uniq with ⟨res, db, log⟩
  rw [hout] at h
  dsimp only at h
  simp only [enrollMain] at hout
  repeat' split at hout
  all_goals cases hout
  all_goals first
    | (cases h; rfl)
    | exact absurd h (by simp)

theorem mem_qAlreadyEnrolledCodes {st : DBState} {sid : Int} {uniq : List Int}
    {x : Int} {c : Course}
    (hsc : (sid, x) ∈ st.student_courses) (hxu : x ∈ uniq)
    (hc : c ∈ st.courses) (hcid : c.course_id = x) :
    c.course_code ∈ qAlreadyEnrolledCodes st sid uniq := by
  unfold qAlreadyEnrolledCodes
  refine List.mem_flatMap.mpr ⟨(sid, x), List.mem_filter.mpr ⟨hsc, by simp [hxu]⟩, ?_⟩
  exact List.mem_map.mpr ⟨c, List.mem_filter.mpr ⟨hc, by simp [hcid]⟩, rfl⟩

/-- C4 amended: enrolling a student again in a course X it is already
enrolled in always fails and never creates a second enrollment row, but the
failure kind is AlreadyEnrolled (naming the code of X) only when the
reported outcome reaches that check, the schedule-clash check against the
existing enrollment not having already failed (in particular when X has no
time slots). -/
theorem claim_C4_duplicate_enrollment (st : DBState) (oracle : Int → Int → Bool)
    (sid x : Int) (cids : List Int) (c : Course)
    (hsc : (sid, x) ∈ st.student_courses) (hx : x ∈ cids)
    (hc : c ∈ st.courses) (hcid : c.course_id = x) :
    isOkResult (saveStudentCourses st oracle (some sid) (some cids)).res = false ∧
    (saveStudentCourses st oracle (some sid) (some cids)).db = st ∧
    (∀ codes,
      (saveStudentCourses st oracle (some sid) (some cids)).res = .alreadyEnrolled codes →
      c.course_code ∈ codes) := by
  by_cases hs : sid = 0
  · subst hs
    refine ⟨by simp [saveStudentCourses, isOkResult], by simp [saveStudentCourses], ?_⟩
    intro codes hcodes
    simp [saveStudentCourses] at hcodes
  · have hE : cids.isEmpty = false := by
      cases cids with
      | nil => exact absurd hx (List.not_mem_nil x)
      | cons a l => rfl
    have hwrap : saveStudentCourses st oracle (some sid) (some cids) =
        enrollMain st oracle sid (jsDedup cids) := by
      simp [saveStudentCourses, hs, hE]
    rw [hwrap]
    have hmem : c.course_code ∈ qAlreadyEnrolledCodes st sid (jsDedup cids) :=
      mem_qAlreadyEnrolledCodes hsc (mem_jsDedup.mpr hx) hc hcid
    have hnotok : isOkResult (enrollMain st oracle sid (jsDedup cids)).res = false := by
      by_contra hcon
      rw [Bool.not_eq_false] at hcon
      rw [enrollMain_ok_already_nil hcon] at hmem
      exact absurd hmem (List.not_mem_nil _)
    refine ⟨hnotok, enrollMain_db_of_not_ok hnotok, ?_⟩
    intro codes hcodes
    rw [enrollMain_alreadyEnrolled_inv hcodes]
    exact hmem

/-- Witness for C4 at a store where the duplicated course has no time slots
(the outcome is then indeed AlreadyEnrolled, naming the course code). -/
theorem claim_C4_witness :
    isOkResult
      (saveStudentCourses ⟨[⟨1, "John", 1⟩], [⟨2, "CS101", "Intro", 1, 3⟩], [], [(1, 2)]⟩
        (fun _ _ => false) (some 1) (some [2])).res = false ∧
    (saveStudentCourses ⟨[⟨1, "John", 1⟩], [⟨2, "CS101", "Intro", 1, 3⟩], [], [(1, 2)]⟩
        (fun _ _ => false) (some 1) (some [2])).db =
      ⟨[⟨1, "John", 1⟩], [⟨2, "CS101", "Intro", 1, 3⟩], [], [(1, 2)]⟩ ∧
    (∀ codes,
      (saveStudentCourses ⟨[⟨1, "John", 1⟩], [⟨2, "CS101", "Intro", 1, 3⟩], [], [(1, 2)]⟩
          (fun _ _ => false) (some 1) (some [2])).res = .alreadyEnrolled codes →
      "CS101" ∈ codes) :=
  claim_C4_duplicate_enrollment
    ⟨[⟨1, "John", 1⟩], [⟨2, "CS101", "Intro", 1, 3⟩], [], [(1, 2)]⟩
    (fun _ _ => false) 1 2 [2] ⟨2, "CS101", "Intro", 1, 3⟩
    (by decide) (by decide) (by decide) (by decide)

/-- Counterexample to C4 as stated: a student already enrolled in course 1
(which has a Monday slot) requests course 1 again; the operation fails with
a schedule clash against the existing enrollment, not with AlreadyEnrolled. -/
theorem claim_C4_counterexample :
    isAlreadyEnrolledResult
      (saveStudentCourses
        ⟨[⟨1, "John", 1⟩], [⟨1, "CS101", "Intro", 1, 4⟩],
          [⟨1, 1, "Monday", "09:00:00", "10:00:00"⟩], [(1, 1)]⟩
        (fun _ _ => false) (some 1) (some [1])).res = false ∧
    (saveStudentCourses
        ⟨[⟨1, "John", 1⟩], [⟨1, "CS101", "Intro", 1, 4⟩],
          [⟨1, 1, "Monday", "09:00:00", "10:00:00"⟩], [(1, 1)]⟩
        (fun _ _ => false) (some 1) (some [1])).res =
      .clash "Monday" ⟨1, 1, "Monday", "09:00:00", "10:00:00", "CS101"⟩
        ⟨1, 1, "Monday", "09:00:00", "10:00:00", "CS101"⟩ := by
  exact ⟨by decide, by decide⟩

/-- C6 amended: a malformed interval (merged start not below merged end
under the string comparison) is rejected as invalid input before any
conflict computation; addTimetable issues no storage statement at all
before rejecting, while updateTimetable first issues the single fetch of
the row being updated (needed to merge the partial update) and then rejects
before any other statement. -/
theorem claim_C6_malformed_interval_fast_fail :
    (∀ (st : DBState) (newId courseId : Int) (day s e : String),
      jsGe s e = true →
      ((addTimetable st newId courseId day s e).res = .invalidDay ∨
        (addTimetable st newId courseId day s e).res = .invalidInterval) ∧
      (addTimetable st newId courseId day s e).db = st ∧
      (addTimetable st newId courseId day s e).log = []) ∧
    (∀ (st : DBState) (tid : Int) (u : TTUpdates) (ex : Timetable) (rest : List Timetable),
      badDay u.dayOfWeek = false →
      st.timetables.filter (fun t => decide (t.timetable_id = tid)) = ex :: rest →
      jsGe (jsOr u.startTime ex.start_time) (jsOr u.endTime ex.end_time) = true →
      (updateTimetable st tid u).res = .invalidInterval ∧
      (updateTimetable st tid u).db = st ∧
      (updateTimetable st tid u).log = [.selTimetableRow tid]) := by
  constructor
  · intro st newId courseId day s e hge
    by_cases hday : day ∈ validDays
    · simp [addTimetable, hday, hge]
    · simp [addTimetable, hday]
  · intro st tid u ex rest hbad hfil hge
    simp only [updateTimetable, hbad, Bool.false_eq_true, if_false, hfil, hge]
    simp

/-- Witness for C6 at a concrete malformed add request. -/
theorem claim_C6_witness :
    ((addTimetable ⟨[], [], [], []⟩ 1 1 "Monday" "10:00:00" "09:00:00").res =
        .invalidDay ∨
      (addTimetable ⟨[], [], [], []⟩ 1 1 "Monday" "10:00:00" "09:00:00").res =
        .invalidInterval) ∧
    (addTimetable ⟨[], [], [], []⟩ 1 1 "Monday" "10:00:00" "09:00:00").db =
      ⟨[], [], [], []⟩ ∧
    (addTimetable ⟨[], [], [], []⟩ 1 1 "Monday" "10:00:00" "09:00:00").log = [] :=
  claim_C6_malformed_interval_fast_fail.1 ⟨[], [], [], []⟩ 1 1 "Monday"
    "10:00:00" "09:00:00" (by decide)

/-- Counterexample to C6 as stated: updateTimetable with a malformed merged
interval does reject it as invalid input, but only after issuing a storage
lookup (the fetch of the row being updated), so the rejection does not
happen before every storage lookup. -/
theorem claim_C6_counterexample :
    (updateTimetable ⟨[], [], [⟨1, 1, "Monday", "09:00:00", "10:00:00"⟩], []⟩ 1
        ⟨none, some "12:00:00", some "09:00:00"⟩).res = .invalidInterval ∧
    (updateTimetable ⟨[], [], [⟨1, 1, "Monday", "09:00:00", "10:00:00"⟩], []⟩ 1
        ⟨none, some "12:00:00", some "09:00:00"⟩).log = [.selTimetableRow 1] ∧
    (updateTimetable ⟨[], [], [⟨1, 1, "Monday", "09:00:00", "10:00:00"⟩], []⟩ 1
        ⟨none, some "12:00:00", some "09:00:00"⟩).log ≠ [] := by
  refine ⟨by decide, by decide, by decide⟩

/-! Lexicographic comparison of zero-padded time strings versus numeric
comparison of the encoded times. -/

theorem pad2_eq_digits : ∀ n, n < 100 →
    pad2 n = [Char.ofNat (48 + n / 10), Char.ofNat (48 + n % 10)] := by decide

theorem charOfNat_digit_toNat : ∀ k, k < 10 → (Char.ofNat (48 + k)).toNat = 48 + k := by
  decide

theorem strLtAux_nil : strLtAux [] [] = false := rfl

theorem strLtAux_colon (r1 r2 : List Char) :
    strLtAux (':' :: r1) (':' :: r2) = strLtAux r1 r2 := by
  simp [strLtAux]

theorem strLtAux_two_digit (x y : Nat) (hx : x < 100) (hy : y < 100)
    (r1 r2 : List Char) :
    strLtAux (Char.ofNat (48 + x / 10) :: Char.ofNat (48 + x % 10) :: r1)
        (Char.ofNat (48 + y / 10) :: Char.ofNat (48 + y % 10) :: r2) =
      if x < y then true else if y < x then false else strLtAux r1 r2 := by
  have d1 := charOfNat_digit_toNat (x / 10) (by omega)
  have d2 := charOfNat_digit_toNat (x % 10) (by omega)
  have d3 := charOfNat_digit_toNat (y / 10) (by omega)
  have d4 := charOfNat_digit_toNat (y % 10) (by omega)
  simp only [strLtAux, d1, d2, d3, d4]
  split_ifs <;> first | rfl | (exfalso; omega)

theorem strLt_hhmmss (h1 m1 s1 h2 m2 s2 : Nat)
    (hh1 : h1 < 24) (hm1 : m1 < 60) (hs1 : s1 < 60)
    (hh2 : h2 < 24) (hm2 : m2 < 60) (hs2 : s2 < 60) :
    strLt (hhmmss h1 m1 s1) (hhmmss h2 m2 s2) =
      decide (secondsOfDay h1 m1 s1 < secondsOfDay h2 m2 s2) := by
  have hdata : ∀ h m s : Nat,
      (hhmmss h m s).data = pad2 h ++ (':' :: (pad2 m ++ (':' :: pad2 s))) :=
    fun _ _ _ => rfl
  have key : strLt (hhmmss h1 m1 s1) (hhmmss h2 m2 s2) =
      (if h1 < h2 then true else if h2 < h1 then false else
        if m1 < m2 then true else if m2 < m1 then false else
          if s1 < s2 then true else if s2 < s1 then false else false) := by
    unfold strLt
    rw [hdata, hdata]
    rw [pad2_eq_digits h1 (by omega), pad2_eq_digits m1 (by omega),
      pad2_eq_digits s1 (by omega), pad2_eq_digits h2 (by omega),
      pad2_eq_digits m2 (by omega), pad2_eq_digits s2 (by omega)]
    simp only [List.cons_append, List.nil_append]
    rw [strLtAux_two_digit h1 h2 (by omega) (by omega), strLtAux_colon,
      strLtAux_two_digit m1 m2 (by omega) (by omega), strLtAux_colon,
      strLtAux_two_digit s1 s2 (by omega) (by omega), strLtAux_nil]
  rw [key]
  split_ifs <;>
    (symm
     simp only [decide_eq_true_eq, decide_eq_false_iff_not, secondsOfDay]
     omega)

/-- C10: on zero-padded fixed-width HH:MM:SS strings the JavaScript string
comparisons the code performs agree with comparison of the encoded times of
day, so the overlap test and the start-before-end validation computed on
such strings equal their numeric counterparts; and only for that format:
without the zero padding the comparisons disagree. -/
theorem claim_C10_lexicographic_agrees_numeric :
    (∀ t1 t2 : Nat × Nat × Nat, validHMS t1 → validHMS t2 →
      (strLt (hms t1) (hms t2) = true ↔ secs t1 < secs t2)) ∧
    (∀ t1 t2 t3 t4 : Nat × Nat × Nat,
      validHMS t1 → validHMS t2 → validHMS t3 → validHMS t4 →
      timeSlotsOverlap (hms t1) (hms t2) (hms t3) (hms t4) =
        timeSlotsOverlapNum (secs t1) (secs t2) (secs t3) (secs t4)) ∧
    (∀ t1 t2 : Nat × Nat × Nat, validHMS t1 → validHMS t2 →
      (jsGe (hms t1) (hms t2) = true ↔ ¬ secs t1 < secs t2)) ∧
    (strLt "9:00:00" "10:00:00" = false ∧ secondsOfDay 9 0 0 < secondsOfDay 10 0 0) := by
  have hlt : ∀ t1 t2 : Nat × Nat × Nat, validHMS t1 → validHMS t2 →
      strLt (hms t1) (hms t2) = decide (secs t1 < secs t2) := by
    rintro ⟨a1, b1, c1⟩ ⟨a2, b2, c2⟩ ⟨ha1, hb1, hc1⟩ ⟨ha2, hb2, hc2⟩
    exact strLt_hhmmss a1 b1 c1 a2 b2 c2 ha1 hb1 hc1 ha2 hb2 hc2
  refine ⟨?_, ?_, ?_, by decide, by decide⟩
  · intro t1 t2 h1 h2
    rw [hlt t1 t2 h1 h2]
    simp
  · intro t1 t2 t3 t4 h1 h2 h3 h4
    unfold timeSlotsOverlap timeSlotsOverlapNum
    rw [hlt t1 t4 h1 h4, hlt t3 t2 h3 h2]
  · intro t1 t2 h1 h2
    unfold jsGe
    rw [hlt t1 t2 h1 h2]
    simp

/-- Witness for C10 at the times 09:00:00 and 10:00:00. -/
theorem claim_C10_witness :
    strLt (hms (9, 0, 0)) (hms (10, 0, 0)) = true ↔ secs (9, 0, 0) < secs (10, 0, 0) :=
  claim_C10_lexicographic_agrees_numeric.1 (9, 0, 0) (10, 0, 0) (by decide) (by decide)

/-! Helper facts for the schedule invariant. -/

theorem sameDayOverlap_comm (a b : Timetable) : sameDayOverlap a b = sameDayOverlap b a := by
  unfold sameDayOverlap
  rw [timeSlotsOverlap_symm]
  congr 1
  simp [eq_comm]

theorem pairwise_of_length_le_one {R : α → α → Prop} :
    ∀ {l : List α}, l.length ≤ 1 → l.Pairwise R
  | [], _ => .nil
  | [a], _ => List.pairwise_singleton R a
  | _ :: _ :: _, h => by simp at h

theorem flatMap_append_perm : ∀ (l : List α) (f g : α → List β),
    List.Perm (l.flatMap fun x => f x ++ g x) (l.flatMap f ++ l.flatMap g)
  | [], _, _ => by simp
  | x :: l, f, g => by
    simp only [List.flatMap_cons]
    have h1 : List.Perm (g x ++ (l.flatMap f ++ l.flatMap g))
        (l.flatMap f ++ (g x ++ l.flatMap g)) := by
      rw [← List.append_assoc, ← List.append_assoc]
      exact List.perm_append_comm.append_right _
    have h2 : List.Perm ((f x ++ g x) ++ l.flatMap (fun y => f y ++ g y))
        ((f x ++ g x) ++ (l.flatMap f ++ l.flatMap g)) :=
      List.Perm.append_left _ (flatMap_append_perm l f g)
    refine h2.trans ?_
    simp only [List.append_assoc]
    exact List.Perm.append_left _ h1

theorem flatMap_ite_singleton_length_le_one {β : Type} {sid courseId : Int} {row : β} :
    ∀ {l : List (Int × Int)}, l.Nodup → (∀ p ∈ l, p.1 = sid) →
      (l.flatMap fun p => if courseId = p.2 then ([row] : List β) else []).length ≤ 1
  | [], _, _ => by simp
  | p :: rest, hnd, hall => by
    rw [List.flatMap_cons, List.length_append]
    by_cases hcp : courseId = p.2
    · rw [if_pos hcp]
      have hrest : (rest.flatMap fun q => if courseId = q.2 then ([row] : List β) else []) =
          [] := by
        rw [List.flatMap_eq_nil_iff]
        intro q hq
        rw [if_neg]
        intro hcq
        have hqp : q = p := by
          have h1 : q.1 = sid := hall q (List.mem_cons_of_mem _ hq)
          have h2 : p.1 = sid := hall p (List.mem_cons_self _ _)
          exact Prod.ext (h1.trans h2.symm) (hcq ▸ hcp ▸ rfl)
        exact (List.nodup_cons.mp hnd).1 (hqp ▸ hq)
      rw [hrest]
      simp
    · rw [if_neg hcp]
      simpa using flatMap_ite_singleton_length_le_one (List.nodup_cons.mp hnd).2
        (fun q hq => hall q (List.mem_cons_of_mem _ hq))

theorem mem_studentSlots {st : DBState} {sid : Int} {t : Timetable} :
    t ∈ studentSlots st sid ↔
      ∃ cid, (sid, cid) ∈ st.student_courses ∧ t ∈ st.timetables ∧ t.course_id = cid := by
  unfold studentSlots
  simp only [List.mem_flatMap, List.mem_filter, decide_eq_true_eq]
  constructor
  · rintro ⟨p, ⟨hp, hp1⟩, ht, htc⟩
    refine ⟨p.2, ?_, ht, by simpa using htc⟩
    have hpe : (sid, p.2) = p := by rw [← hp1]
    rwa [hpe]
  · rintro ⟨cid, hp, ht, htc⟩
    exact ⟨(sid, cid), ⟨hp, rfl⟩, ht, by simpa using htc⟩

/-! Success inversion for the admin operations. -/

theorem addTimetable_addOk_inv {st : DBState} {newId courseId : Int}
    {day s e : String} {tid cid : Int} {d2 s2 e2 : String}
    (h : (addTimetable st newId courseId day s e).res = .addOk tid cid d2 s2 e2) :
    day ∈ validDays ∧ jsGe s e = false ∧
    (qEnrolledStudentsOf st courseId = [] ∨ qAddConflicts st courseId day s e = []) ∧
    (addTimetable st newId courseId day s e).db =
      { st with timetables := st.timetables ++ [⟨newId, courseId, day, s, e⟩] } := by
  by_cases hday : day ∈ validDays
  · by_cases hge : jsGe s e = true
    · exfalso; simp [addTimetable, hday, hge] at h
    · have hge2 : jsGe s e = false := by simpa using hge
      cases hcr : st.courses.filter (fun c => decide (c.course_id = courseId)) with
      | nil => exfalso; simp [addTimetable, hday, hge2, hcr] at h
      | cons c0 cr =>
        by_cases henr : 0 < (qEnrolledStudentsOf st courseId).length
        · by_cases hconf : 0 < (qAddConflicts st courseId day s e).length
          · exfalso; simp [addTimetable, hday, hge2, hcr, henr, hconf] at h
          · refine ⟨hday, hge2, Or.inr (by rw [← List.length_eq_zero]; omega), ?_⟩
            simp [addTimetable, hday, hge2, hcr, henr, hconf]
        · refine ⟨hday, hge2, Or.inl (by rw [← List.length_eq_zero]; omega), ?_⟩
          simp [addTimetable, hday, hge2, hcr, henr]
  · exfalso; simp [addTimetable, hday] at h

theorem updateTimetable_updOk_inv {st : DBState} {tid : Int} {u : TTUpdates}
    {tid2 : Int} {d2 s2 e2 : String}
    (h : (updateTimetable st tid u).res = .updOk tid2 d2 s2 e2) :
    ∃ ex rest,
      st.timetables.filter (fun t => decide (t.timetable_id = tid)) = ex :: rest ∧
      badDay u.dayOfWeek = false ∧
      jsGe (jsOr u.startTime ex.start_time) (jsOr u.endTime ex.end_time) = false ∧
      qUpdConflicts st ex.course_id (jsOr u.dayOfWeek ex.day_of_week)
        (jsOr u.startTime ex.start_time) (jsOr u.endTime ex.end_time) tid = [] ∧
      (updateTimetable st tid u).db =
        { st with timetables := st.timetables.map (fun t =>
            if t.timetable_id = tid then
              (⟨t.timetable_id, t.course_id, jsOr u.dayOfWeek ex.day_of_week,
                jsOr u.startTime ex.start_time, jsOr u.endTime ex.end_time⟩ : Timetable)
            else t) } := by
  by_cases hbad : badDay u.dayOfWeek = true
  · exfalso; simp [updateTimetable, hbad] at h
  · have hbad2 : badDay u.dayOfWeek = false := by simpa using hbad
    cases hfil : st.timetables.filter (fun t => decide (t.timetable_id = tid)) with
    | nil => exfalso; simp [updateTimetable, hbad2, hfil] at h
    | cons ex rest =>
      by_cases hge : jsGe (jsOr u.startTime ex.start_time) (jsOr u.endTime ex.end_time) = true
      · exfalso; simp [updateTimetable, hbad2, hfil, hge] at h
      · have hge2 : jsGe (jsOr u.startTime ex.start_time) (jsOr u.endTime ex.end_time) =
            false := by simpa using hge
        by_cases hconf : 0 < (qUpdConflicts st ex.course_id (jsOr u.dayOfWeek ex.day_of_week)
            (jsOr u.startTime ex.start_time) (jsOr u.endTime ex.end_time) tid).length
        · exfalso; simp [updateTimetable, hbad2, hfil, hge2, hconf] at h
        · refine ⟨ex, rest, rfl, hbad2, hge2,
            by rw [← List.length_eq_zero]; omega, ?_⟩
          simp [updateTimetable, hbad2, hfil, hge2, hconf]

/-! Invariant preservation for the admin operations. -/

theorem addTimetable_preserves {st : DBState} {newId courseId : Int} {day s e : String}
    {tid cid : Int} {d2 s2 e2 : String}
    (hwf : dbWF st) (hok : scheduleOk st)
    (hsame : ∀ t ∈ st.timetables, t.course_id = courseId → t.day_of_week = day →
      timeSlotsOverlap s e t.start_time t.end_time = false)
    (hsucc : (addTimetable st newId courseId day s e).res = .addOk tid cid d2 s2 e2) :
    scheduleOk (addTimetable st newId courseId day s e).db := by
  obtain ⟨hday, hge, hcases, hdb⟩ := addTimetable_addOk_inv hsucc
  rw [hdb]
  intro sid
  have hsymm : ∀ {x y : Timetable}, sameDayOverlap x y = false → sameDayOverlap y x = false :=
    fun {x y} hxy => (sameDayOverlap_comm y x).trans hxy
  have hslots : studentSlots { st with timetables :=
        st.timetables ++ [⟨newId, courseId, day, s, e⟩] } sid =
      (st.student_courses.filter (fun p => decide (p.1 = sid))).flatMap
        (fun p => st.timetables.filter (fun t => decide (t.course_id = p.2)) ++
          (if courseId = p.2 then [⟨newId, courseId, day, s, e⟩] else [])) := by
    unfold studentSlots
    dsimp only
    congr 1
    funext p
    rw [List.filter_append]
    congr 1
    by_cases hcp : courseId = p.2
    · simp [hcp]
    · simp [hcp]
  rw [hslots]
  rw [List.Perm.pairwise_iff hsymm (flatMap_append_perm _ _ _)]
  rw [List.pairwise_append]
  refine ⟨hok sid, ?_, ?_⟩
  · exact pairwise_of_length_le_one
      (flatMap_ite_singleton_length_le_one (hwf.1.filter _)
        (fun p hp => by simpa using (List.mem_filter.mp hp).2))
  · intro a ha b hb
    obtain ⟨p, hp, hbp⟩ := List.mem_flatMap.mp hb
    obtain ⟨hpsc, hp1b⟩ := List.mem_filter.mp hp
    have hp1 : p.1 = sid := by simpa using hp1b
    by_cases hcp : courseId = p.2
    case neg => rw [if_neg hcp] at hbp; exact absurd hbp (List.not_mem_nil _)
    case pos =>
    rw [if_pos hcp] at hbp
    obtain rfl : b = ⟨newId, courseId, day, s, e⟩ := by simpa using hbp
    have henr : (sid, courseId) ∈ st.student_courses := by
      have hpe : p = (sid, courseId) := Prod.ext hp1 hcp.symm
      rwa [hpe] at hpsc
    obtain ⟨q, hq, haq⟩ := List.mem_flatMap.mp ha
    obtain ⟨hqsc, hq1b⟩ := List.mem_filter.mp hq
    have hq1 : q.1 = sid := by simpa using hq1b
    obtain ⟨hatt, haqcb⟩ := List.mem_filter.mp haq
    have hac : a.course_id = q.2 := by simpa using haqcb
    by_cases hdq : a.day_of_week = day
    case neg => simp [sameDayOverlap, hdq]
    case pos =>
    by_cases hqc : q.2 = courseId
    · have hsame2 := hsame a hatt (hac.trans hqc) hdq
      have hov : timeSlotsOverlap a.start_time a.end_time s e = false := by
        rw [timeSlotsOverlap_symm]; exact hsame2
      simp [sameDayOverlap, hov]
    · rcases hcases with henr0 | hconf0
      · exfalso
        obtain ⟨s0, hs0, hs0id⟩ := hwf.2.2.1 (sid, courseId) henr
        have hmem : (s0.student_id, s0.name) ∈ qEnrolledStudentsOf st courseId := by
          unfold qEnrolledStudentsOf
          rw [mem_jsDedup]
          exact List.mem_flatMap.mpr ⟨(sid, courseId),
            List.mem_filter.mpr ⟨henr, by simp⟩,
            List.mem_map.mpr ⟨s0, List.mem_filter.mpr ⟨hs0, by simp [hs0id]⟩, rfl⟩⟩
        rw [henr0] at hmem
        exact absurd hmem (List.not_mem_nil _)
      · by_contra hcon
        rw [Bool.not_eq_false] at hcon
        have hparts : strLt a.start_time e = true ∧ strLt s a.end_time = true := by
          have := hcon
          simp only [sameDayOverlap, timeSlotsOverlap, Bool.and_eq_true,
            decide_eq_true_eq] at this
          exact this.2
        obtain ⟨s0, hs0, hs0id⟩ := hwf.2.2.1 (sid, courseId) henr
        obtain ⟨c0, hc0, hc0id⟩ := hwf.2.2.2 a hatt
        have hmem : (⟨s0.student_id, s0.name, c0.course_code, a.day_of_week,
            a.start_time, a.end_time⟩ : ConflictRow) ∈
              qAddConflicts st courseId day s e := by
          unfold qAddConflicts
          rw [mem_jsDedup]
          refine List.mem_flatMap.mpr ⟨(sid, courseId),
            List.mem_filter.mpr ⟨henr, by simp⟩, ?_⟩
          refine List.mem_flatMap.mpr ⟨s0,
            List.mem_filter.mpr ⟨hs0, by simp [hs0id]⟩, ?_⟩
          refine List.mem_flatMap.mpr ⟨q,
            List.mem_filter.mpr ⟨hqsc, by simp [hq1, hs0id, hqc]⟩, ?_⟩
          refine List.mem_flatMap.mpr ⟨a,
            List.mem_filter.mpr ⟨hatt, by simp [hac, hdq, hparts.1, hparts.2]⟩, ?_⟩
          exact List.mem_map.mpr ⟨c0, List.mem_filter.mpr ⟨hc0, by simp [hc0id]⟩, rfl⟩
        rw [hconf0] at hmem
        exact absurd hmem (List.not_mem_nil _)

theorem no_overlap_of_updConflicts_nil {st : DBState} {C : Int} {nd ns nE : String}
    {tid : Int} {sid cb : Int} {b : Timetable} {i c : Int}
    (hwf : dbWF st)
    (hconf : qUpdConflicts st C nd ns nE tid = [])
    (hsc : (sid, C) ∈ st.student_courses)
    (hqb : (sid, cb) ∈ st.student_courses) (hbtt : b ∈ st.timetables)
    (hbqc : b.course_id = cb) (hbt : ¬ b.timetable_id = tid) :
    sameDayOverlap (⟨i, c, nd, ns, nE⟩ : Timetable) b = false := by
  by_cases hdq : nd = b.day_of_week
  · by_contra hcon
    rw [Bool.not_eq_false] at hcon
    have hparts : strLt ns b.end_time = true ∧ strLt b.start_time nE = true := by
      have := hcon
      simp only [sameDayOverlap, timeSlotsOverlap, Bool.and_eq_true,
        decide_eq_true_eq] at this
      exact this.2
    obtain ⟨s0, hs0, hs0id⟩ := hwf.2.2.1 (sid, C) hsc
    obtain ⟨c0, hc0, hc0id⟩ := hwf.2.2.2 b hbtt
    have hmem : (⟨s0.student_id, s0.name, c0.course_code, b.day_of_week,
        b.start_time, b.end_time⟩ : ConflictRow) ∈ qUpdConflicts st C nd ns nE tid := by
      unfold qUpdConflicts
      rw [mem_jsDedup]
      refine List.mem_flatMap.mpr ⟨(sid, C),
        List.mem_filter.mpr ⟨hsc, by simp⟩, ?_⟩
      refine List.mem_flatMap.mpr ⟨s0,
        List.mem_filter.mpr ⟨hs0, by simp [hs0id]⟩, ?_⟩
      refine List.mem_flatMap.mpr ⟨(sid, cb),
        List.mem_filter.mpr ⟨hqb, by simp [hs0id]⟩, ?_⟩
      refine List.mem_flatMap.mpr ⟨b,
        List.mem_filter.mpr ⟨hbtt, by simp [hbqc, hdq.symm, hparts.1, hparts.2, hbt]⟩, ?_⟩
      exact List.mem_map.mpr ⟨c0, List.mem_filter.mpr ⟨hc0, by simp [hc0id]⟩, rfl⟩
    rw [hconf] at hmem
    exact absurd hmem (List.not_mem_nil _)
  · simp [sameDayOverlap, hdq]

theorem updateTimetable_preserves {st : DBState} {tid : Int} {u : TTUpdates}
    {tid2 : Int} {d2 s2 e2 : String}
    (hwf : dbWF st)
    (hwfT : ∀ t ∈ st.timetables, strLt t.start_time t.end_time = true)
    (hok : scheduleOk st)
    (hsucc : (updateTimetable st tid u).res = .updOk tid2 d2 s2 e2) :
    scheduleOk (updateTimetable st tid u).db := by
  obtain ⟨ex, rest, hfil, hbad, hge, hconf, hdb⟩ := updateTimetable_updOk_inv hsucc
  rw [hdb]
  intro sid
  have hexmem : ex ∈ st.timetables ∧ ex.timetable_id = tid := by
    have hx : ex ∈ st.timetables.filter (fun t => decide (t.timetable_id = tid)) := by
      rw [hfil]; exact List.mem_cons_self _ _
    have h2 := List.mem_filter.mp hx
    exact ⟨h2.1, by simpa using h2.2⟩
  have hum : ∀ t : Timetable,
      ((if t.timetable_id = tid then
        (⟨t.timetable_id, t.course_id, jsOr u.dayOfWeek ex.day_of_week,
          jsOr u.startTime ex.start_time, jsOr u.endTime ex.end_time⟩ : Timetable)
      else t)).course_id = t.course_id := by
    intro t
    by_cases h : t.timetable_id = tid <;> simp [h]
  have hslots : studentSlots { st with timetables := st.timetables.map (fun t =>
        if t.timetable_id = tid then
          (⟨t.timetable_id, t.course_id, jsOr u.dayOfWeek ex.day_of_week,
            jsOr u.startTime ex.start_time, jsOr u.endTime ex.end_time⟩ : Timetable)
        else t) } sid =
      (studentSlots st sid).map (fun t =>
        if t.timetable_id = tid then
          (⟨t.timetable_id, t.course_id, jsOr u.dayOfWeek ex.day_of_week,
            jsOr u.startTime ex.start_time, jsOr u.endTime ex.end_time⟩ : Timetable)
        else t) := by
    unfold studentSlots
    dsimp only
    rw [List.map_flatMap]
    congr 1
    funext p
    rw [List.filter_map]
    congr 1
    apply List.filter_congr
    intro t _
    simp only [Function.comp_apply, hum t]
  rw [hslots, List.pairwise_map, List.pairwise_iff_forall_sublist]
  intro a b hsub
  have hR : sameDayOverlap a b = false :=
    List.pairwise_iff_forall_sublist.mp (hok sid) hsub
  have hamem : a ∈ studentSlots st sid := hsub.subset (by simp)
  have hbmem : b ∈ studentSlots st sid := hsub.subset (by simp)
  obtain ⟨qa, hqa, hatt, haqc⟩ := mem_studentSlots.mp hamem
  obtain ⟨qb, hqb, hbtt, hbqc⟩ := mem_studentSlots.mp hbmem
  have huniq : ∀ t, t ∈ st.timetables → t.timetable_id = tid → t = ex := by
    intro t ht htid
    exact List.inj_on_of_nodup_map hwf.2.1 ht hexmem.1 (by rw [htid, hexmem.2])
  by_cases hat : a.timetable_id = tid <;> by_cases hbt : b.timetable_id = tid
  · exfalso
    have ha2 : a = ex := huniq a hatt hat
    have hb2 : b = ex := huniq b hbtt hbt
    rw [ha2, hb2] at hR
    have hwfe : strLt ex.start_time ex.end_time = true := hwfT ex hexmem.1
    simp [sameDayOverlap, timeSlotsOverlap, hwfe] at hR
  · rw [if_pos hat, if_neg hbt]
    have ha2 : a = ex := huniq a hatt hat
    have hscA : (sid, ex.course_id) ∈ st.student_courses := by
      have hq2 : qa = ex.course_id := by rw [← haqc, ha2]
      rwa [hq2] at hqa
    exact no_overlap_of_updConflicts_nil hwf hconf hscA hqb hbtt hbqc hbt
  · rw [if_neg hat, if_pos hbt]
    rw [sameDayOverlap_comm]
    have hb2 : b = ex := huniq b hbtt hbt
    have hscB : (sid, ex.course_id) ∈ st.student_courses := by
      have hq2 : qb = ex.course_id := by rw [← hbqc, hb2]
      rwa [hq2] at hqb
    exact no_overlap_of_updConflicts_nil hwf hconf hscB hqa hatt haqc hat
  · rw [if_neg hat, if_neg hbt]
    exact hR

/-! Rejection of conflicting candidates by the admin operations. -/

theorem addTimetable_rejects {st : DBState} {newId courseId : Int} {day s e : String}
    {x : Int} {sx : Student} {c2 : Int} {t : Timetable} {cop ct : Course}
    (hday : day ∈ validDays) (hlt : strLt s e = true)
    (hcop : cop ∈ st.courses) (hcopid : cop.course_id = courseId)
    (hx : (x, courseId) ∈ st.student_courses)
    (hsx : sx ∈ st.students) (hsxid : sx.student_id = x)
    (hx2 : (x, c2) ∈ st.student_courses) (hc2 : c2 ≠ courseId)
    (ht : t ∈ st.timetables) (htc : t.course_id = c2) (htd : t.day_of_week = day)
    (hts : strLt t.start_time e = true) (hte : strLt s t.end_time = true)
    (hct : ct ∈ st.courses) (hctid : ct.course_id = t.course_id) :
    (addTimetable st newId courseId day s e).res =
      .conflictAdd (qAddConflicts st courseId day s e) ∧
    (⟨sx.student_id, sx.name, ct.course_code, t.day_of_week, t.start_time,
      t.end_time⟩ : ConflictRow) ∈ qAddConflicts st courseId day s e ∧
    (addTimetable st newId courseId day s e).db = st := by
  have hmem : (⟨sx.student_id, sx.name, ct.course_code, t.day_of_week, t.start_time,
      t.end_time⟩ : ConflictRow) ∈ qAddConflicts st courseId day s e := by
    unfold qAddConflicts
    rw [mem_jsDedup]
    refine List.mem_flatMap.mpr ⟨(x, courseId),
      List.mem_filter.mpr ⟨hx, by simp⟩, ?_⟩
    refine List.mem_flatMap.mpr ⟨sx,
      List.mem_filter.mpr ⟨hsx, by simp [hsxid]⟩, ?_⟩
    refine List.mem_flatMap.mpr ⟨(x, c2),
      List.mem_filter.mpr ⟨hx2, by simp [hsxid, hc2]⟩, ?_⟩
    refine List.mem_flatMap.mpr ⟨t,
      List.mem_filter.mpr ⟨ht, by simp [htc, htd, hts, hte]⟩, ?_⟩
    exact List.mem_map.mpr ⟨ct, List.mem_filter.mpr ⟨hct, by simp [hctid]⟩, rfl⟩
  have hge2 : jsGe s e = false := by simp [jsGe, hlt]
  have henr : 0 < (qEnrolledStudentsOf st courseId).length := by
    apply List.length_pos_of_mem (a := (sx.student_id, sx.name))
    unfold qEnrolledStudentsOf
    rw [mem_jsDedup]
    exact List.mem_flatMap.mpr ⟨(x, courseId),
      List.mem_filter.mpr ⟨hx, by simp⟩,
      List.mem_map.mpr ⟨sx, List.mem_filter.mpr ⟨hsx, by simp [hsxid]⟩, rfl⟩⟩
  have hconf : 0 < (qAddConflicts st courseId day s e).length :=
    List.length_pos_of_mem hmem
  cases hcrc : st.courses.filter (fun c => decide (c.course_id = courseId)) with
  | nil =>
    exfalso
    rw [List.filter_eq_nil_iff] at hcrc
    exact (hcrc cop hcop) (by simp [hcopid])
  | cons c0 cr =>
    refine ⟨?_, hmem, ?_⟩
    · simp [addTimetable, hday, hge2, hcrc, henr, hconf]
    · simp [addTimetable, hday, hge2, hcrc, henr, hconf]

theorem updateTimetable_rejects {st : DBState} {tid : Int} {u : TTUpdates}
    {ex : Timetable} {rest : List Timetable} {x : Int} {sx : Student} {c2 : Int}
    {t : Timetable} {ct : Course}
    (hbad : badDay u.dayOfWeek = false)
    (hfil : st.timetables.filter (fun t2 => decide (t2.timetable_id = tid)) = ex :: rest)
    (hlt : strLt (jsOr u.startTime ex.start_time) (jsOr u.endTime ex.end_time) = true)
    (hx : (x, ex.course_id) ∈ st.student_courses)
    (hsx : sx ∈ st.students) (hsxid : sx.student_id = x)
    (hx2 : (x, c2) ∈ st.student_courses)
    (ht : t ∈ st.timetables) (htc : t.course_id = c2) (htid : ¬ t.timetable_id = tid)
    (htd : t.day_of_week = jsOr u.dayOfWeek ex.day_of_week)
    (hts : strLt t.start_time (jsOr u.endTime ex.end_time) = true)
    (hte : strLt (jsOr u.startTime ex.start_time) t.end_time = true)
    (hct : ct ∈ st.courses) (hctid : ct.course_id = t.course_id) :
    (updateTimetable st tid u).res =
      .conflictUpd (qUpdConflicts st ex.course_id (jsOr u.dayOfWeek ex.day_of_week)
        (jsOr u.startTime ex.start_time) (jsOr u.endTime ex.end_time) tid) ∧
    (⟨sx.student_id, sx.name, ct.course_code, t.day_of_week, t.start_time,
      t.end_time⟩ : ConflictRow) ∈
        qUpdConflicts st ex.course_id (jsOr u.dayOfWeek ex.day_of_week)
          (jsOr u.startTime ex.start_time) (jsOr u.endTime ex.end_time) tid ∧
    (updateTimetable st tid u).db = st := by
  have hmem : (⟨sx.student_id, sx.name, ct.course_code, t.day_of_week, t.start_time,
      t.end_time⟩ : ConflictRow) ∈
        qUpdConflicts st ex.course_id (jsOr u.dayOfWeek ex.day_of_week)
          (jsOr u.startTime ex.start_time) (jsOr u.endTime ex.end_time) tid := by
    unfold qUpdConflicts
    rw [mem_jsDedup]
    refine List.mem_flatMap.mpr ⟨(x, ex.course_id),
      List.mem_filter.mpr ⟨hx, by simp⟩, ?_⟩
    refine List.mem_flatMap.mpr ⟨sx,
      List.mem_filter.mpr ⟨hsx, by simp [hsxid]⟩, ?_⟩
    refine List.mem_flatMap.mpr ⟨(x, c2),
      List.mem_filter.mpr ⟨hx2, by simp [hsxid]⟩, ?_⟩
    refine List.mem_flatMap.mpr ⟨t,
      List.mem_filter.mpr ⟨ht, by simp [htc, htd, hts, hte, htid]⟩, ?_⟩
    exact List.mem_map.mpr ⟨ct, List.mem_filter.mpr ⟨hct, by simp [hctid]⟩, rfl⟩
  have hge2 : jsGe (jsOr u.startTime ex.start_time) (jsOr u.endTime ex.end_time) = false := by
    simp [jsGe, hlt]
  have hconf : 0 < (qUpdConflicts st ex.course_id (jsOr u.dayOfWeek ex.day_of_week)
      (jsOr u.startTime ex.start_time) (jsOr u.endTime ex.end_time) tid).length :=
    List.length_pos_of_mem hmem
  refine ⟨?_, hmem, ?_⟩
  · simp [updateTimetable, hbad, hfil, hge2, hconf]
  · simp [updateTimetable, hbad, hfil, hge2, hconf]

/-- C5 amended: updateTimetable preserves the per-student schedule invariant
on every success and rejects any candidate that would overlap another slot
of an enrolled student (naming the affected students and the conflicting
slots); addTimetable does the same only against slots of other courses of
the enrolled students, so it preserves the invariant provided the candidate
does not overlap an existing same-weekday slot of the course itself.
Uniqueness and foreign-key facts of the schema, well-formed stored
intervals, and the invariant are assumed of the input state. -/
theorem claim_C5_schedule_invariant (st : DBState) (hwf : dbWF st)
    (hwfT : ∀ t ∈ st.timetables, strLt t.start_time t.end_time = true)
    (hok : scheduleOk st) :
    (∀ (newId courseId : Int) (day s e : String) (tid cid : Int) (d2 s2 e2 : String),
      (∀ t ∈ st.timetables, t.course_id = courseId → t.day_of_week = day →
        timeSlotsOverlap s e t.start_time t.end_time = false) →
      (addTimetable st newId courseId day s e).res = .addOk tid cid d2 s2 e2 →
      scheduleOk (addTimetable st newId courseId day s e).db) ∧
    (∀ (tid : Int) (u : TTUpdates) (tid2 : Int) (d2 s2 e2 : String),
      (updateTimetable st tid u).res = .updOk tid2 d2 s2 e2 →
      scheduleOk (updateTimetable st tid u).db) ∧
    (∀ (newId courseId : Int) (day s e : String) (x : Int) (sx : Student) (c2 : Int)
        (t : Timetable) (cop ct : Course),
      day ∈ validDays → strLt s e = true →
      cop ∈ st.courses → cop.course_id = courseId →
      (x, courseId) ∈ st.student_courses → sx ∈ st.students → sx.student_id = x →
      (x, c2) ∈ st.student_courses → c2 ≠ courseId →
      t ∈ st.timetables → t.course_id = c2 → t.day_of_week = day →
      strLt t.start_time e = true → strLt s t.end_time = true →
      ct ∈ st.courses → ct.course_id = t.course_id →
      (addTimetable st newId courseId day s e).res =
        .conflictAdd (qAddConflicts st courseId day s e) ∧
      (⟨sx.student_id, sx.name, ct.course_code, t.day_of_week, t.start_time,
        t.end_time⟩ : ConflictRow) ∈ qAddConflicts st courseId day s e ∧
      (addTimetable st newId courseId day s e).db = st) ∧
    (∀ (tid : Int) (u : TTUpdates) (ex : Timetable) (rest : List Timetable) (x : Int)
        (sx : Student) (c2 : Int) (t : Timetable) (ct : Course),
      badDay u.dayOfWeek = false →
      st.timetables.filter (fun t2 => decide (t2.timetable_id = tid)) = ex :: rest →
      strLt (jsOr u.startTime ex.start_time) (jsOr u.endTime ex.end_time) = true →
      (x, ex.course_id) ∈ st.student_courses → sx ∈ st.students → sx.student_id = x →
      (x, c2) ∈ st.student_courses →
      t ∈ st.timetables → t.course_id = c2 → ¬ t.timetable_id = tid →
      t.day_of_week = jsOr u.dayOfWeek ex.day_of_week →
      strLt t.start_time (jsOr u.endTime ex.end_time) = true →
      strLt (jsOr u.startTime ex.start_time) t.end_time = true →
      ct ∈ st.courses → ct.course_id = t.course_id →
      (updateTimetable st tid u).res =
        .conflictUpd (qUpdConflicts st ex.course_id (jsOr u.dayOfWeek ex.day_of_week)
          (jsOr u.startTime ex.start_time) (jsOr u.endTime ex.end_time) tid) ∧
      (⟨sx.student_id, sx.name, ct.course_code, t.day_of_week, t.start_time,
        t.end_time⟩ : ConflictRow) ∈
          qUpdConflicts st ex.course_id (jsOr u.dayOfWeek ex.day_of_week)
            (jsOr u.startTime ex.start_time) (jsOr u.endTime ex.end_time) tid ∧
      (updateTimetable st tid u).db = st) := by
  refine ⟨?_, ?_, ?_, ?_⟩
  · intro newId courseId day s e tid cid d2 s2 e2 hsame hsucc
    exact addTimetable_preserves hwf hok hsame hsucc
  · intro tid u tid2 d2 s2 e2 hsucc
    exact updateTimetable_preserves hwf hwfT hok hsucc
  · intro newId courseId day s e x sx c2 t cop ct hday hlt hcop hcopid hx hsx hsxid
      hx2 hc2 ht htc htd hts hte hct hctid
    exact addTimetable_rejects hday hlt hcop hcopid hx hsx hsxid hx2 hc2 ht htc htd
      hts hte hct hctid
  · intro tid u ex rest x sx c2 t ct hbad hfil hlt hx hsx hsxid hx2 ht htc htid htd
      hts hte hct hctid
    exact updateTimetable_rejects hbad hfil hlt hx hsx hsxid hx2 ht htc htid htd
      hts hte hct hctid

/-- Witness for C5 amended: a concrete successful addTimetable call on a
store satisfying the assumptions, with the invariant holding afterwards. -/
theorem claim_C5_witness :
    scheduleOk (addTimetable ⟨[], [⟨1, "CS101", "Intro", 1, 3⟩], [], []⟩ 10 1
      "Monday" "09:00:00" "10:00:00").db :=
  (claim_C5_schedule_invariant ⟨[], [⟨1, "CS101", "Intro", 1, 3⟩], [], []⟩
      ⟨by decide, by decide, by decide, by decide⟩ (by decide)
      (fun _ => List.Pairwise.nil)).1
    10 1 "Monday" "09:00:00" "10:00:00" 10 1 "Monday" "09:00:00" "10:00:00"
    (by decide) (by decide)

/-- Counterexample to C5 as stated: with student 1 enrolled in course 1
(slot Monday 09:00 to 10:00) and the invariant holding, addTimetable admits
a second identical Monday slot for course 1 itself: the operation succeeds
and the resulting store violates the invariant, because the conflict query
of addTimetable excludes slots of the course being modified. -/
theorem claim_C5_counterexample :
    scheduleOk ⟨[⟨1, "John", 1⟩], [⟨1, "CS101", "Intro", 1, 4⟩],
      [⟨1, 1, "Monday", "09:00:00", "10:00:00"⟩], [(1, 1)]⟩ ∧
    (addTimetable ⟨[⟨1, "John", 1⟩], [⟨1, "CS101", "Intro", 1, 4⟩],
        [⟨1, 1, "Monday", "09:00:00", "10:00:00"⟩], [(1, 1)]⟩ 2 1
      "Monday" "09:00:00" "10:00:00").res = .addOk 2 1 "Monday" "09:00:00" "10:00:00" ∧
    ¬ scheduleOk (addTimetable ⟨[⟨1, "John", 1⟩], [⟨1, "CS101", "Intro", 1, 4⟩],
        [⟨1, 1, "Monday", "09:00:00", "10:00:00"⟩], [(1, 1)]⟩ 2 1
      "Monday" "09:00:00" "10:00:00").db := by
  refine ⟨?_, by decide, ?_⟩
  · intro sid
    by_cases h1 : sid = 1
    · subst h1
      have hs : studentSlots ⟨[⟨1, "John", 1⟩], [⟨1, "CS101", "Intro", 1, 4⟩],
          [⟨1, 1, "Monday", "09:00:00", "10:00:00"⟩], [(1, 1)]⟩ 1 =
          [⟨1, 1, "Monday", "09:00:00", "10:00:00"⟩] := rfl
      rw [hs]
      exact List.pairwise_singleton _ _
    · have hs : studentSlots ⟨[⟨1, "John", 1⟩], [⟨1, "CS101", "Intro", 1, 4⟩],
          [⟨1, 1, "Monday", "09:00:00", "10:00:00"⟩], [(1, 1)]⟩ sid = [] := by
        unfold studentSlots
        have hd : decide ((1 : Int) = sid) = false :=
          decide_eq_false (fun hc => h1 hc.symm)
        simp [hd]
      rw [hs]
      exact List.Pairwise.nil
  · intro hcon
    have h1 := hcon 1
    have hs : studentSlots (addTimetable ⟨[⟨1, "John", 1⟩], [⟨1, "CS101", "Intro", 1, 4⟩],
        [⟨1, 1, "Monday", "09:00:00", "10:00:00"⟩], [(1, 1)]⟩ 2 1
        "Monday" "09:00:00" "10:00:00").db 1 =
        [⟨1, 1, "Monday", "09:00:00", "10:00:00"⟩,
          ⟨2, 1, "Monday", "09:00:00", "10:00:00"⟩] := by decide
    rw [hs] at h1
    have h2 := (List.pairwise_cons.mp h1).1 ⟨2, 1, "Monday", "09:00:00", "10:00:00"⟩
      (by simp)
    exact absurd h2 (by decide)

end SCS
